import Mathlib

set_option linter.unusedVariables false

/- Shallow embedding of src/constant_pool.rs (crate classparse): the constant
   pool decoder, the fixed-point reference resolver and the validator for JVM
   class files.  The Rust code shares entries through Rc<ConstantPoolEntry>
   and mutates references in place through RefCell interior mutability; the
   Vec of Rc slots never changes after construction, so a resolved reference
   (Rust: Resolved(Rc<ConstantPoolEntry>)) is modelled arena-style as the
   target's pool index, and in-place mutation becomes a functional update of
   the entry list threaded through each scan. -/

/-- Modelled from the spec: the crate-level `err` helper (crate root, not
under src/), which wraps a diagnostic string into a Result::Err. -/
def err (s : String) : Except String α := Except.error s

/-- Reducible alias for String, needed inside declarations of the
ConstantPoolEntry namespace where the bare name String denotes the
ConstantPoolEntry.String constructor. -/
abbrev ErrString : Type := String

/-- Modelled from the spec: `BootstrapMethodRef` lives at the crate root (not
under src/); an InvokeDynamic entry carries an index into the external
bootstrap-method table which this subsystem leaves unresolved. -/
inductive BootstrapMethodRef where
  | Unresolved (ix : Nat)
deriving DecidableEq, Repr

/-- ReferenceKind from src/constant_pool.rs: the nine MethodHandle tags. -/
inductive ReferenceKind where
  | GetField
  | GetStatic
  | PutField
  | PutStatic
  | InvokeVirtual
  | InvokeStatic
  | InvokeSpecial
  | NewInvokeSpecial
  | InvokeInterface
deriving DecidableEq, Repr

/-- ConstantPoolRef from src/constant_pool.rs.  `Unresolved` carries the raw
u16 index read from the byte stream; `Resolved` carries the pool index of the
target entry (the Rust code stores the Rc handle `pool[target].clone()`; the
pool slot at that index never changes, so the index determines the target). -/
inductive ConstantPoolRef where
  | Unresolved (ix : Nat)
  | Resolved (ix : Nat)
deriving DecidableEq, Repr

/-- ConstantPoolEntry from src/constant_pool.rs.  Cow<str> becomes String;
Integer/Long hold the two's-complement value; Float/Double hold the raw
big-endian bit pattern (the Rust code stores f32::from_bits/f64::from_bits of
exactly these bits and never computes with them in this module). -/
inductive ConstantPoolEntry where
  | Zero
  | Utf8 (s : String)
  | Integer (v : Int)
  | Float (bits : Nat)
  | Long (v : Int)
  | Double (bits : Nat)
  | ClassInfo (x : ConstantPoolRef)
  | String (x : ConstantPoolRef)
  | FieldRef (x : ConstantPoolRef) (y : ConstantPoolRef)
  | MethodRef (x : ConstantPoolRef) (y : ConstantPoolRef)
  | InterfaceMethodRef (x : ConstantPoolRef) (y : ConstantPoolRef)
  | NameAndType (x : ConstantPoolRef) (y : ConstantPoolRef)
  | MethodHandle (k : ReferenceKind) (y : ConstantPoolRef)
  | MethodType (x : ConstantPoolRef)
  | InvokeDynamic (b : BootstrapMethodRef) (y : ConstantPoolRef)
  | Unused
deriving DecidableEq, Repr

/-- ConstantPoolRef::is_resolved. -/
def ConstantPoolRef.is_resolved : ConstantPoolRef → Bool
  | ConstantPoolRef.Unresolved _ => false
  | ConstantPoolRef.Resolved _ => true

/-- ConstantPoolEntry::is_resolved. -/
def ConstantPoolEntry.is_resolved : ConstantPoolEntry → Bool
  | ConstantPoolEntry.ClassInfo x => x.is_resolved
  | ConstantPoolEntry.String x => x.is_resolved
  | ConstantPoolEntry.FieldRef x y => x.is_resolved && y.is_resolved
  | ConstantPoolEntry.MethodRef x y => x.is_resolved && y.is_resolved
  | ConstantPoolEntry.InterfaceMethodRef x y => x.is_resolved && y.is_resolved
  | ConstantPoolEntry.NameAndType x y => x.is_resolved && y.is_resolved
  | ConstantPoolEntry.MethodHandle _ y => y.is_resolved
  | ConstantPoolEntry.MethodType x => x.is_resolved
  | ConstantPoolEntry.InvokeDynamic _ y => y.is_resolved
  | _ => true

/-- ConstantPoolRef::resolve.  Order of checks as in the source: first the
self-reference check, then the bounds check, then the is-the-target-resolved
check (Ok(false) leaves the reference untouched), else the reference becomes
Resolved and the call reports Ok(true). -/
def ConstantPoolRef.resolve (r : ConstantPoolRef) (my_index : Nat)
    (pool : List ConstantPoolEntry) : Except String (ConstantPoolRef × Bool) :=
  match r with
  | ConstantPoolRef.Unresolved ix =>
      if ix = my_index then
        Except.error ("Constant pool entry at index " ++ toString my_index ++
          " could not be resolved due to self-reference")
      else if pool.length ≤ ix then
        Except.error ("Constant pool entry at index " ++ toString my_index ++
          " references out-of-bounds index " ++ toString ix)
      else if (pool.getD ix ConstantPoolEntry.Zero).is_resolved then
        Except.ok (ConstantPoolRef.Resolved ix, true)
      else
        Except.ok (ConstantPoolRef.Unresolved ix, false)
  | ConstantPoolRef.Resolved ix => Except.ok (ConstantPoolRef.Resolved ix, true)

/-- Helper shared by the four two-reference arms of ConstantPoolEntry::resolve:
Rust's `Ok(x.resolve(my_index, pool)? && y.resolve(my_index, pool)?)` — the
`&&` short-circuits, so y is not examined when x reports false. -/
def resolveRefs2 (mk : ConstantPoolRef → ConstantPoolRef → ConstantPoolEntry)
    (x y : ConstantPoolRef) (my_index : Nat) (pool : List ConstantPoolEntry) :
    Except String (ConstantPoolEntry × Bool) :=
  match x.resolve my_index pool with
  | Except.error e => Except.error e
  | Except.ok (x2, b1) =>
    if b1 then
      match y.resolve my_index pool with
      | Except.error e => Except.error e
      | Except.ok (y2, b2) => Except.ok (mk x2 y2, b2)
    else Except.ok (mk x2 y, false)

/-- Helper for the single-reference arms of ConstantPoolEntry::resolve. -/
def resolveRef1 (mk : ConstantPoolRef → ConstantPoolEntry)
    (x : ConstantPoolRef) (my_index : Nat) (pool : List ConstantPoolEntry) :
    Except String (ConstantPoolEntry × Bool) :=
  match x.resolve my_index pool with
  | Except.error e => Except.error e
  | Except.ok (x2, b1) => Except.ok (mk x2, b1)

/-- ConstantPoolEntry::resolve. -/
def ConstantPoolEntry.resolve (entry : ConstantPoolEntry) (my_index : Nat)
    (pool : List ConstantPoolEntry) : Except ErrString (ConstantPoolEntry × Bool) :=
  match entry with
  | ConstantPoolEntry.ClassInfo x => resolveRef1 ConstantPoolEntry.ClassInfo x my_index pool
  | ConstantPoolEntry.String x => resolveRef1 ConstantPoolEntry.String x my_index pool
  | ConstantPoolEntry.FieldRef x y => resolveRefs2 ConstantPoolEntry.FieldRef x y my_index pool
  | ConstantPoolEntry.MethodRef x y => resolveRefs2 ConstantPoolEntry.MethodRef x y my_index pool
  | ConstantPoolEntry.InterfaceMethodRef x y => resolveRefs2 ConstantPoolEntry.InterfaceMethodRef x y my_index pool
  | ConstantPoolEntry.NameAndType x y => resolveRefs2 ConstantPoolEntry.NameAndType x y my_index pool
  | ConstantPoolEntry.MethodHandle k y => resolveRef1 (ConstantPoolEntry.MethodHandle k) y my_index pool
  | ConstantPoolEntry.MethodType x => resolveRef1 ConstantPoolEntry.MethodType x my_index pool
  | ConstantPoolEntry.InvokeDynamic b y => resolveRef1 (ConstantPoolEntry.InvokeDynamic b) y my_index pool
  | e => Except.ok (e, true)

/-- Raw indices held by the still-unresolved references of one reference cell
(specification-side measurement used to state acyclicity of the reference
graph; not part of the source). -/
def ConstantPoolRef.targets : ConstantPoolRef → List Nat
  | ConstantPoolRef.Unresolved ix => [ix]
  | ConstantPoolRef.Resolved _ => []

/-- Raw indices held by the still-unresolved references of one entry
(specification-side measurement; not part of the source). -/
def ConstantPoolEntry.unresolvedTargets : ConstantPoolEntry → List Nat
  | ConstantPoolEntry.ClassInfo x => x.targets
  | ConstantPoolEntry.String x => x.targets
  | ConstantPoolEntry.FieldRef x y => x.targets ++ y.targets
  | ConstantPoolEntry.MethodRef x y => x.targets ++ y.targets
  | ConstantPoolEntry.InterfaceMethodRef x y => x.targets ++ y.targets
  | ConstantPoolEntry.NameAndType x y => x.targets ++ y.targets
  | ConstantPoolEntry.MethodHandle _ y => y.targets
  | ConstantPoolEntry.MethodType x => x.targets
  | ConstantPoolEntry.InvokeDynamic _ y => y.targets
  | _ => []

/-- Number of fully resolved entries of a pool (specification-side
measurement: the quantity the Rust loop counts in each pass). -/
def numResolved (pool : List ConstantPoolEntry) : Nat :=
  pool.countP (fun e => e.is_resolved)

/-- The body of resolve_constant_pool's for-loop: `for (i, cp_entry) in
constant_pool.iter().enumerate()`, visiting index i and incrementing the
pass's count when the entry reports true.  The fuel argument k equals
pool.length − i at every call (the initial call passes k = pool.length and
both arguments step together), so the zero-fuel arm is exactly loop exit. -/
def resolvePassAux : Nat → List ConstantPoolEntry → Nat → Nat →
    Except String (List ConstantPoolEntry × Nat)
  | 0, pool, _, count => Except.ok (pool, count)
  | k + 1, pool, i, count =>
    match (pool.getD i ConstantPoolEntry.Zero).resolve i pool with
    | Except.error e => Except.error e
    | Except.ok (e2, b) =>
      resolvePassAux k (pool.set i e2) (i + 1) (if b then count + 1 else count)

/-- One full scan of resolve_constant_pool over all entries.  Entries updated
earlier in the scan are visible to later entries, as with the RefCell
mutation in the source. -/
def resolvePass (pool : List ConstantPoolEntry) :
    Except String (List ConstantPoolEntry × Nat) :=
  resolvePassAux pool.length pool 0 0

/-- The while-loop of resolve_constant_pool, with an explicit bound on the
number of passes.  Each executed pass strictly increases resolved_count
(otherwise the loop returns the stall error), and resolved_count is at most
pool.length, so a pass budget of pool.length + 1 is never exhausted: the
termination theorems below prove the `none` arm unreachable from the entry
point used by resolve_constant_pool. -/
def resolveLoopFuel : Nat → List ConstantPoolEntry → Nat →
    Option (Except String (List ConstantPoolEntry))
  | 0, _, _ => none
  | fuel + 1, pool, resolved_count =>
    if resolved_count < pool.length then
      match resolvePass pool with
      | Except.error e => some (Except.error e)
      | Except.ok (pool2, count) =>
        if count = resolved_count then
          some (err "Unable to resolve all constant pool entries")
        else
          resolveLoopFuel fuel pool2 count
    else
      some (Except.ok pool)

/-- resolve_constant_pool.  The Rust function mutates the pool in place and
returns Ok(()); the model returns the final pool.  The default of getD is
dead code: the pass budget pool.length + 1 is proved sufficient below. -/
def resolve_constant_pool (constant_pool : List ConstantPoolEntry) :
    Except String (List ConstantPoolEntry) :=
  (resolveLoopFuel (constant_pool.length + 1) constant_pool 0).getD
    (Except.error "internal: resolution pass budget exhausted (unreachable)")

/-- The ConstantPoolEntryTypes bitflags constants (u16 bit set). -/
def ConstantPoolEntryTypes.ZERO : Nat := 0x0001

def ConstantPoolEntryTypes.UTF8 : Nat := 0x0002

def ConstantPoolEntryTypes.INTEGER : Nat := 0x0004

def ConstantPoolEntryTypes.FLOAT : Nat := 0x0008

def ConstantPoolEntryTypes.LONG : Nat := 0x0010

def ConstantPoolEntryTypes.DOUBLE : Nat := 0x0020

def ConstantPoolEntryTypes.CLASS_INFO : Nat := 0x0040

def ConstantPoolEntryTypes.STRING : Nat := 0x0080

def ConstantPoolEntryTypes.FIELD_REF : Nat := 0x0100

def ConstantPoolEntryTypes.METHOD_REF : Nat := 0x0200

def ConstantPoolEntryTypes.INTERFACE_METHOD_REF : Nat := 0x0400

def ConstantPoolEntryTypes.NAME_AND_TYPE : Nat := 0x0800

def ConstantPoolEntryTypes.METHOD_HANDLE : Nat := 0x1000

def ConstantPoolEntryTypes.METHOD_TYPE : Nat := 0x2000

def ConstantPoolEntryTypes.INVOKE_DYNAMIC : Nat := 0x4000

def ConstantPoolEntryTypes.UNUSED : Nat := 0x8000

def ConstantPoolEntryTypes.CLASS_OR_ZERO : Nat :=
  ConstantPoolEntryTypes.ZERO ||| ConstantPoolEntryTypes.CLASS_INFO

def ConstantPoolEntryTypes.NEW_METHOD_REFS : Nat :=
  ConstantPoolEntryTypes.METHOD_REF ||| ConstantPoolEntryTypes.INTERFACE_METHOD_REF

def ConstantPoolEntryTypes.CONSTANTS : Nat :=
  ConstantPoolEntryTypes.INTEGER ||| ConstantPoolEntryTypes.FLOAT |||
  ConstantPoolEntryTypes.LONG ||| ConstantPoolEntryTypes.DOUBLE |||
  ConstantPoolEntryTypes.STRING

def ConstantPoolEntryTypes.UTF8_OR_ZERO : Nat :=
  ConstantPoolEntryTypes.ZERO ||| ConstantPoolEntryTypes.UTF8

def ConstantPoolEntryTypes.NAME_AND_TYPE_OR_ZERO : Nat :=
  ConstantPoolEntryTypes.ZERO ||| ConstantPoolEntryTypes.NAME_AND_TYPE

/-- bitflags `contains`: every bit of t is present in s. -/
def ConstantPoolEntryTypes.contains (s t : Nat) : Bool := s &&& t == t

/-- ConstantPoolEntry::get_type. -/
def ConstantPoolEntry.get_type : ConstantPoolEntry → Nat
  | ConstantPoolEntry.Zero => ConstantPoolEntryTypes.ZERO
  | ConstantPoolEntry.Utf8 _ => ConstantPoolEntryTypes.UTF8
  | ConstantPoolEntry.Integer _ => ConstantPoolEntryTypes.INTEGER
  | ConstantPoolEntry.Float _ => ConstantPoolEntryTypes.FLOAT
  | ConstantPoolEntry.Long _ => ConstantPoolEntryTypes.LONG
  | ConstantPoolEntry.Double _ => ConstantPoolEntryTypes.DOUBLE
  | ConstantPoolEntry.ClassInfo _ => ConstantPoolEntryTypes.CLASS_INFO
  | ConstantPoolEntry.String _ => ConstantPoolEntryTypes.STRING
  | ConstantPoolEntry.FieldRef _ _ => ConstantPoolEntryTypes.FIELD_REF
  | ConstantPoolEntry.MethodRef _ _ => ConstantPoolEntryTypes.METHOD_REF
  | ConstantPoolEntry.InterfaceMethodRef _ _ => ConstantPoolEntryTypes.INTERFACE_METHOD_REF
  | ConstantPoolEntry.NameAndType _ _ => ConstantPoolEntryTypes.NAME_AND_TYPE
  | ConstantPoolEntry.MethodHandle _ _ => ConstantPoolEntryTypes.METHOD_HANDLE
  | ConstantPoolEntry.MethodType _ => ConstantPoolEntryTypes.METHOD_TYPE
  | ConstantPoolEntry.InvokeDynamic _ _ => ConstantPoolEntryTypes.INVOKE_DYNAMIC
  | ConstantPoolEntry.Unused => ConstantPoolEntryTypes.UNUSED

/-- ConstantPoolEntry::ensure_type. -/
def ConstantPoolEntry.ensure_type (entry : ConstantPoolEntry) (allowed : Nat) :
    Except ErrString Bool :=
  if ConstantPoolEntryTypes.contains allowed entry.get_type then
    Except.ok true
  else
    err "Unexpected constant pool reference type for"

/-- RefCellDeref::ensure_type on a reference cell: the source dereferences the
Resolved handle (`self.borrow().get()`) and checks the target's type; `get`
on an Unresolved reference panics in the source ("Called get on a unresolved
ConstantPoolRef"), modelled as a distinguished error; validation only runs on
fully resolved pools, where that arm is unreachable. -/
def ConstantPoolRef.ensure_type (r : ConstantPoolRef)
    (pool : List ConstantPoolEntry) (allowed : Nat) : Except String Bool :=
  match r with
  | ConstantPoolRef.Resolved ix =>
      (pool.getD ix ConstantPoolEntry.Zero).ensure_type allowed
  | ConstantPoolRef.Unresolved _ =>
      Except.error "Called get on a unresolved ConstantPoolRef"

/-- ConstantPoolEntry::validate.  The two-reference arms mirror Rust's
`Ok(x.ensure_type(..)? && y.ensure_type(..)?)`. -/
def ConstantPoolEntry.validate (entry : ConstantPoolEntry)
    (pool : List ConstantPoolEntry) (major_version : Nat) : Except ErrString Bool :=
  match entry with
  | ConstantPoolEntry.ClassInfo x => x.ensure_type pool ConstantPoolEntryTypes.UTF8
  | ConstantPoolEntry.String x => x.ensure_type pool ConstantPoolEntryTypes.UTF8
  | ConstantPoolEntry.FieldRef x y =>
    match x.ensure_type pool ConstantPoolEntryTypes.CLASS_INFO with
    | Except.error e => Except.error e
    | Except.ok b1 =>
      if b1 then y.ensure_type pool ConstantPoolEntryTypes.NAME_AND_TYPE
      else Except.ok false
  | ConstantPoolEntry.MethodRef x y =>
    match x.ensure_type pool ConstantPoolEntryTypes.CLASS_INFO with
    | Except.error e => Except.error e
    | Except.ok b1 =>
      if b1 then y.ensure_type pool ConstantPoolEntryTypes.NAME_AND_TYPE
      else Except.ok false
  | ConstantPoolEntry.InterfaceMethodRef x y =>
    match x.ensure_type pool ConstantPoolEntryTypes.CLASS_INFO with
    | Except.error e => Except.error e
    | Except.ok b1 =>
      if b1 then y.ensure_type pool ConstantPoolEntryTypes.NAME_AND_TYPE
      else Except.ok false
  | ConstantPoolEntry.NameAndType x y =>
    match x.ensure_type pool ConstantPoolEntryTypes.UTF8 with
    | Except.error e => Except.error e
    | Except.ok b1 =>
      if b1 then y.ensure_type pool ConstantPoolEntryTypes.UTF8
      else Except.ok false
  | ConstantPoolEntry.MethodHandle x y =>
    y.ensure_type pool (match x with
      | ReferenceKind.GetField => ConstantPoolEntryTypes.FIELD_REF
      | ReferenceKind.GetStatic => ConstantPoolEntryTypes.FIELD_REF
      | ReferenceKind.PutField => ConstantPoolEntryTypes.FIELD_REF
      | ReferenceKind.PutStatic => ConstantPoolEntryTypes.FIELD_REF
      | ReferenceKind.InvokeVirtual => ConstantPoolEntryTypes.METHOD_REF
      | ReferenceKind.NewInvokeSpecial => ConstantPoolEntryTypes.METHOD_REF
      | ReferenceKind.InvokeStatic =>
          if major_version < 52 then ConstantPoolEntryTypes.METHOD_REF
          else ConstantPoolEntryTypes.NEW_METHOD_REFS
      | ReferenceKind.InvokeSpecial =>
          if major_version < 52 then ConstantPoolEntryTypes.METHOD_REF
          else ConstantPoolEntryTypes.NEW_METHOD_REFS
      | ReferenceKind.InvokeInterface => ConstantPoolEntryTypes.INTERFACE_METHOD_REF)
  | ConstantPoolEntry.MethodType x => x.ensure_type pool ConstantPoolEntryTypes.UTF8
  | ConstantPoolEntry.InvokeDynamic _ y =>
      y.ensure_type pool ConstantPoolEntryTypes.NAME_AND_TYPE
  | _ => Except.ok true

/-- The body of validate_constant_pool's for-loop; the fuel argument k equals
pool.length − i at every call (the entry point passes k = pool.length), so
the zero-fuel arm is exactly loop exit.  An entry's error is annotated with
the entry's index, as in the source's map_err. -/
def validateAux : Nat → List ConstantPoolEntry → Nat → Nat → Except String Unit
  | 0, _, _, _ => Except.ok ()
  | k + 1, pool, major_version, i =>
    match (pool.getD i ConstantPoolEntry.Zero).validate pool major_version with
    | Except.error e =>
        Except.error (e ++ " constant pool entry " ++ toString i)
    | Except.ok _ => validateAux k pool major_version (i + 1)

/-- validate_constant_pool. -/
def validate_constant_pool (constant_pool : List ConstantPoolEntry)
    (major_version : Nat) : Except String Unit :=
  validateAux constant_pool.length constant_pool major_version 0

/-- Modelled from the spec: the external byte-cursor primitive read_u1 (crate
root, not under src/) — reads one byte at the cursor and advances it;
truncation is a fatal error reported with the offset. -/
def read_u1 (bytes : List Nat) (ix : Nat) : Except String (Nat × Nat) :=
  if ix + 1 ≤ bytes.length then
    Except.ok (bytes.getD ix 0, ix + 1)
  else
    Except.error ("Unexpected end of stream at index " ++ toString ix)

/-- Modelled from the spec: the external byte-cursor primitive read_u2 —
reads a big-endian u16 and advances the cursor by two. -/
def read_u2 (bytes : List Nat) (ix : Nat) : Except String (Nat × Nat) :=
  if ix + 2 ≤ bytes.length then
    Except.ok (bytes.getD ix 0 * 256 + bytes.getD (ix + 1) 0, ix + 2)
  else
    Except.error ("Unexpected end of stream at index " ++ toString ix)

/-- Modelled from the spec: the external byte-cursor primitive read_u4 —
reads a big-endian u32 and advances the cursor by four. -/
def read_u4 (bytes : List Nat) (ix : Nat) : Except String (Nat × Nat) :=
  if ix + 4 ≤ bytes.length then
    Except.ok (((bytes.getD ix 0 * 256 + bytes.getD (ix + 1) 0) * 256 +
      bytes.getD (ix + 2) 0) * 256 + bytes.getD (ix + 3) 0, ix + 4)
  else
    Except.error ("Unexpected end of stream at index " ++ toString ix)

/-- Modelled from the spec: the external byte-cursor primitive read_u8 —
reads a big-endian u64 and advances the cursor by eight. -/
def read_u8 (bytes : List Nat) (ix : Nat) : Except String (Nat × Nat) :=
  if ix + 8 ≤ bytes.length then
    Except.ok (((((((bytes.getD ix 0 * 256 + bytes.getD (ix + 1) 0) * 256 +
      bytes.getD (ix + 2) 0) * 256 + bytes.getD (ix + 3) 0) * 256 +
      bytes.getD (ix + 4) 0) * 256 + bytes.getD (ix + 5) 0) * 256 +
      bytes.getD (ix + 6) 0) * 256 + bytes.getD (ix + 7) 0, ix + 8)
  else
    Except.error ("Unexpected end of stream at index " ++ toString ix)

/-- Rust's `as i32` on the u32 just read: two's-complement reinterpretation. -/
def toInt32 (v : Nat) : Int := if v < 2 ^ 31 then (v : Int) else (v : Int) - 2 ^ 32

/-- Rust's `as i64` on the u64 just read: two's-complement reinterpretation. -/
def toInt64 (v : Nat) : Int := if v < 2 ^ 63 then (v : Int) else (v : Int) - 2 ^ 64

/-- Modelled from the spec: the external `cesu8::from_java_cesu8` modified
UTF-8 (CESU-8) decoder, an out-of-scope collaborator of the decoder.  It is
modelled exactly on the ASCII subset, which is all the claims exercise:
bytes 0x01–0x7F decode to the corresponding characters, and any other byte
is a decode error. -/
def from_java_cesu8 (data : List Nat) : Except String String :=
  if data.all (fun b => decide (0 < b) && decide (b < 128)) then
    Except.ok (String.mk (data.map (fun b => Char.ofNat b)))
  else
    Except.error "invalid modified-utf8 data"

/-- read_unresolved_cp_ref. -/
def read_unresolved_cp_ref (bytes : List Nat) (ix : Nat) :
    Except String (ConstantPoolRef × Nat) :=
  match read_u2 bytes ix with
  | Except.error e => Except.error e
  | Except.ok (v, ix1) => Except.ok (ConstantPoolRef.Unresolved v, ix1)

/-- read_constant_utf8. -/
def read_constant_utf8 (bytes : List Nat) (ix : Nat) :
    Except String (ConstantPoolEntry × Nat) :=
  match read_u2 bytes ix with
  | Except.error e => Except.error e
  | Except.ok (length, ix1) =>
    if bytes.length < ix1 + length then
      Except.error ("Unexpected end of stream reading CONSTANT_Utf8 at index " ++
        toString ix1)
    else
      match from_java_cesu8 ((bytes.drop ix1).take length) with
      | Except.error e =>
          Except.error ("Error reading CONSTANT_Utf8 at indices " ++ toString ix1 ++
            ".." ++ toString (ix1 + length) ++ ": " ++ e)
      | Except.ok s => Except.ok (ConstantPoolEntry.Utf8 s, ix1 + length)

/-- read_constant_integer. -/
def read_constant_integer (bytes : List Nat) (ix : Nat) :
    Except String (ConstantPoolEntry × Nat) :=
  match read_u4 bytes ix with
  | Except.error e => Except.error e
  | Except.ok (v, ix1) => Except.ok (ConstantPoolEntry.Integer (toInt32 v), ix1)

/-- read_constant_float (f32::from_bits: the raw bits are kept). -/
def read_constant_float (bytes : List Nat) (ix : Nat) :
    Except String (ConstantPoolEntry × Nat) :=
  match read_u4 bytes ix with
  | Except.error e => Except.error e
  | Except.ok (v, ix1) => Except.ok (ConstantPoolEntry.Float v, ix1)

/-- read_constant_long. -/
def read_constant_long (bytes : List Nat) (ix : Nat) :
    Except String (ConstantPoolEntry × Nat) :=
  match read_u8 bytes ix with
  | Except.error e => Except.error e
  | Except.ok (v, ix1) => Except.ok (ConstantPoolEntry.Long (toInt64 v), ix1)

/-- read_constant_double (f64::from_bits: the raw bits are kept). -/
def read_constant_double (bytes : List Nat) (ix : Nat) :
    Except String (ConstantPoolEntry × Nat) :=
  match read_u8 bytes ix with
  | Except.error e => Except.error e
  | Except.ok (v, ix1) => Except.ok (ConstantPoolEntry.Double v, ix1)

/-- read_constant_class. -/
def read_constant_class (bytes : List Nat) (ix : Nat) :
    Except String (ConstantPoolEntry × Nat) :=
  match read_unresolved_cp_ref bytes ix with
  | Except.error e => Except.error e
  | Except.ok (name_ref, ix1) => Except.ok (ConstantPoolEntry.ClassInfo name_ref, ix1)

/-- read_constant_string. -/
def read_constant_string (bytes : List Nat) (ix : Nat) :
    Except String (ConstantPoolEntry × Nat) :=
  match read_unresolved_cp_ref bytes ix with
  | Except.error e => Except.error e
  | Except.ok (value_ref, ix1) => Except.ok (ConstantPoolEntry.String value_ref, ix1)

/-- read_constant_fieldref. -/
def read_constant_fieldref (bytes : List Nat) (ix : Nat) :
    Except String (ConstantPoolEntry × Nat) :=
  match read_unresolved_cp_ref bytes ix with
  | Except.error e => Except.error e
  | Except.ok (class_ref, ix1) =>
    match read_unresolved_cp_ref bytes ix1 with
    | Except.error e => Except.error e
    | Except.ok (name_and_type_ref, ix2) =>
        Except.ok (ConstantPoolEntry.FieldRef class_ref name_and_type_ref, ix2)

/-- read_constant_methodref. -/
def read_constant_methodref (bytes : List Nat) (ix : Nat) :
    Except String (ConstantPoolEntry × Nat) :=
  match read_unresolved_cp_ref bytes ix with
  | Except.error e => Except.error e
  | Except.ok (class_ref, ix1) =>
    match read_unresolved_cp_ref bytes ix1 with
    | Except.error e => Except.error e
    | Except.ok (name_and_type_ref, ix2) =>
        Except.ok (ConstantPoolEntry.MethodRef class_ref name_and_type_ref, ix2)

/-- read_constant_interfacemethodref. -/
def read_constant_interfacemethodref (bytes : List Nat) (ix : Nat) :
    Except String (ConstantPoolEntry × Nat) :=
  match read_unresolved_cp_ref bytes ix with
  | Except.error e => Except.error e
  | Except.ok (class_ref, ix1) =>
    match read_unresolved_cp_ref bytes ix1 with
    | Except.error e => Except.error e
    | Except.ok (name_and_type_ref, ix2) =>
        Except.ok (ConstantPoolEntry.InterfaceMethodRef class_ref name_and_type_ref, ix2)

/-- read_constant_nameandtype. -/
def read_constant_nameandtype (bytes : List Nat) (ix : Nat) :
    Except String (ConstantPoolEntry × Nat) :=
  match read_unresolved_cp_ref bytes ix with
  | Except.error e => Except.error e
  | Except.ok (name_ref, ix1) =>
    match read_unresolved_cp_ref bytes ix1 with
    | Except.error e => Except.error e
    | Except.ok (descriptor_ref, ix2) =>
        Except.ok (ConstantPoolEntry.NameAndType name_ref descriptor_ref, ix2)

/-- read_constant_methodhandle. -/
def read_constant_methodhandle (bytes : List Nat) (ix : Nat) :
    Except String (ConstantPoolEntry × Nat) :=
  match read_u1 bytes ix with
  | Except.error e => Except.error e
  | Except.ok (n, ix1) =>
    match (match n with
      | 1 => Except.ok ReferenceKind.GetField
      | 2 => Except.ok ReferenceKind.GetStatic
      | 3 => Except.ok ReferenceKind.PutField
      | 4 => Except.ok ReferenceKind.PutStatic
      | 5 => Except.ok ReferenceKind.InvokeVirtual
      | 6 => Except.ok ReferenceKind.InvokeStatic
      | 7 => Except.ok ReferenceKind.InvokeSpecial
      | 8 => Except.ok ReferenceKind.NewInvokeSpecial
      | 9 => Except.ok ReferenceKind.InvokeInterface
      | m => Except.error ("Unexpected reference kind " ++ toString m ++
          " when reading CONSTANT_methodhandle at index " ++ toString (ix1 - 1))) with
    | Except.error e => Except.error e
    | Except.ok reference_kind =>
      match read_unresolved_cp_ref bytes ix1 with
      | Except.error e => Except.error e
      | Except.ok (reference_ref, ix2) =>
          Except.ok (ConstantPoolEntry.MethodHandle reference_kind reference_ref, ix2)

/-- read_constant_methodtype. -/
def read_constant_methodtype (bytes : List Nat) (ix : Nat) :
    Except String (ConstantPoolEntry × Nat) :=
  match read_unresolved_cp_ref bytes ix with
  | Except.error e => Except.error e
  | Except.ok (descriptor_ref, ix1) =>
      Except.ok (ConstantPoolEntry.MethodType descriptor_ref, ix1)

/-- read_constant_invokedynamic. -/
def read_constant_invokedynamic (bytes : List Nat) (ix : Nat) :
    Except String (ConstantPoolEntry × Nat) :=
  match read_u2 bytes ix with
  | Except.error e => Except.error e
  | Except.ok (b, ix1) =>
    match read_unresolved_cp_ref bytes ix1 with
    | Except.error e => Except.error e
    | Except.ok (name_and_type_ref, ix2) =>
        Except.ok (ConstantPoolEntry.InvokeDynamic (BootstrapMethodRef.Unresolved b)
          name_and_type_ref, ix2)

/-- The tag dispatch in read_constant_pool's loop body; ix is the cursor
position just after the tag byte, so the unknown-tag error reports ix − 1,
matching the source's `*ix - 1`. -/
def readEntry (constant_type : Nat) (bytes : List Nat) (ix : Nat) :
    Except String (ConstantPoolEntry × Nat) :=
  match constant_type with
  | 1 => read_constant_utf8 bytes ix
  | 3 => read_constant_integer bytes ix
  | 4 => read_constant_float bytes ix
  | 5 => read_constant_long bytes ix
  | 6 => read_constant_double bytes ix
  | 7 => read_constant_class bytes ix
  | 8 => read_constant_string bytes ix
  | 9 => read_constant_fieldref bytes ix
  | 10 => read_constant_methodref bytes ix
  | 11 => read_constant_interfacemethodref bytes ix
  | 12 => read_constant_nameandtype bytes ix
  | 15 => read_constant_methodhandle bytes ix
  | 16 => read_constant_methodtype bytes ix
  | 18 => read_constant_invokedynamic bytes ix
  | n => Except.error ("Unexpected constant pool entry type " ++ toString n ++
      " at index " ++ toString (ix - 1))

/-- The `while cp_ix < constant_pool_count` loop of read_constant_pool.  The
logical index cp_ix advances by one per entry and by two for Long/Double
tags, which additionally push a synthetic Unused entry.  cp_ix strictly
increases every iteration, so count < k + cp_ix + 1 is invariant under the
entry point's fuel k = count and the zero-fuel arm (which coincides with the
loop-exit arm) is reached only when the guard cp_ix < count already fails. -/
def readCPLoop : Nat → List Nat → Nat → Nat → Nat → List ConstantPoolEntry →
    Except String (List ConstantPoolEntry × Nat)
  | 0, _, ix, _, _, acc => Except.ok (acc, ix)
  | k + 1, bytes, ix, cp_ix, count, acc =>
    if cp_ix < count then
      match read_u1 bytes ix with
      | Except.error e => Except.error e
      | Except.ok (constant_type, ix1) =>
        match readEntry constant_type bytes ix1 with
        | Except.error e => Except.error e
        | Except.ok (entry, ix2) =>
          if constant_type = 5 ∨ constant_type = 6 then
            readCPLoop k bytes ix2 (cp_ix + 2) count
              ((acc ++ [entry]) ++ [ConstantPoolEntry.Unused])
          else
            readCPLoop k bytes ix2 (cp_ix + 1) count (acc ++ [entry])
    else Except.ok (acc, ix)

/-- read_constant_pool: decode from cp_ix = 1 over a pool pre-populated with
the Zero sentinel, then resolve, then validate. -/
def read_constant_pool (bytes : List Nat) (ix : Nat) (constant_pool_count : Nat)
    (major_version : Nat) : Except String (List ConstantPoolEntry × Nat) :=
  match readCPLoop constant_pool_count bytes ix 1 constant_pool_count
      [ConstantPoolEntry.Zero] with
  | Except.error e => Except.error e
  | Except.ok (constant_pool, ix1) =>
    match resolve_constant_pool constant_pool with
    | Except.error e => Except.error e
    | Except.ok resolved_pool =>
      match validate_constant_pool resolved_pool major_version with
      | Except.error e => Except.error e
      | Except.ok _ => Except.ok (resolved_pool, ix1)

/-- read_cp_ref: the typed reference reader used by downstream consumers. -/
def read_cp_ref (bytes : List Nat) (ix : Nat) (pool : List ConstantPoolEntry)
    (allowed : Nat) : Except String (ConstantPoolEntry × Nat) :=
  match read_u2 bytes ix with
  | Except.error e => Except.error e
  | Except.ok (cp_index, ix1) =>
    if pool.length ≤ cp_index then
      Except.error ("Out-of-bounds index " ++ toString cp_index ++
        " in constant pool reference for")
    else
      match (pool.getD cp_index ConstantPoolEntry.Zero).ensure_type allowed with
      | Except.error e => Except.error e
      | Except.ok _ => Except.ok (pool.getD cp_index ConstantPoolEntry.Zero, ix1)

/- ===================== Theorems ===================== -/

/-- C3: if a full resolution scan leaves the total resolved count unchanged
from the prior pass while the pool is not yet fully resolved (the loop guard
resolved_count < pool.length holds), resolve_constant_pool fails with the
error "Unable to resolve all constant pool entries"; and the concrete pool
with entry 1 a NameAndType whose name reference is raw index 2 and entry 2 a
NameAndType whose name reference is raw index 1 (mutually dependent) fails
with exactly this unresolvable-graph error. -/
theorem c3_stall_error :
    (∀ (fuel : Nat) (pool pool2 : List ConstantPoolEntry) (rc : Nat),
      rc < pool.length →
      resolvePass pool = Except.ok (pool2, rc) →
      resolveLoopFuel (fuel + 1) pool rc =
        some (Except.error "Unable to resolve all constant pool entries")) ∧
    resolve_constant_pool
      [ConstantPoolEntry.Zero,
       ConstantPoolEntry.NameAndType (ConstantPoolRef.Unresolved 2)
         (ConstantPoolRef.Unresolved 2),
       ConstantPoolEntry.NameAndType (ConstantPoolRef.Unresolved 1)
         (ConstantPoolRef.Unresolved 1)] =
      Except.error "Unable to resolve all constant pool entries" := by
  constructor
  · intro fuel pool pool2 rc h1 h2
    simp [resolveLoopFuel, h1, h2, err]
  · rfl

/-- Witness for C3: the mutually-dependent two-NameAndType pool reaches the
stalled state (prior count 1 of 3 entries, scan returns count 1 again), and
the theorem yields the unresolvable-graph error there. -/
theorem c3_stall_error_witness :
    (1 < ([ConstantPoolEntry.Zero,
       ConstantPoolEntry.NameAndType (ConstantPoolRef.Unresolved 2)
         (ConstantPoolRef.Unresolved 2),
       ConstantPoolEntry.NameAndType (ConstantPoolRef.Unresolved 1)
         (ConstantPoolRef.Unresolved 1)] : List ConstantPoolEntry).length ∧
     resolvePass
       [ConstantPoolEntry.Zero,
        ConstantPoolEntry.NameAndType (ConstantPoolRef.Unresolved 2)
          (ConstantPoolRef.Unresolved 2),
        ConstantPoolEntry.NameAndType (ConstantPoolRef.Unresolved 1)
          (ConstantPoolRef.Unresolved 1)] =
       Except.ok
         ([ConstantPoolEntry.Zero,
           ConstantPoolEntry.NameAndType (ConstantPoolRef.Unresolved 2)
             (ConstantPoolRef.Unresolved 2),
           ConstantPoolEntry.NameAndType (ConstantPoolRef.Unresolved 1)
             (ConstantPoolRef.Unresolved 1)], 1)) ∧
    resolveLoopFuel 3
      [ConstantPoolEntry.Zero,
       ConstantPoolEntry.NameAndType (ConstantPoolRef.Unresolved 2)
         (ConstantPoolRef.Unresolved 2),
       ConstantPoolEntry.NameAndType (ConstantPoolRef.Unresolved 1)
         (ConstantPoolRef.Unresolved 1)] 1 =
      some (Except.error "Unable to resolve all constant pool entries") :=
  ⟨⟨by decide, by rfl⟩, c3_stall_error.1 2 _ _ 1 (by decide) (by rfl)⟩

/-- C4, counterexample: the claim says an entry referencing its own index at
any reference position (first or second) fails with the self-reference error,
never with the unresolvable-graph error.  In the pool below, entry 1 is a
NameAndType whose second reference targets its own index 1, but its first
reference (to the unresolved entry 2) reports false, so Rust's short-circuit
`&&` never examines the second reference; the two entries then stall and
resolution fails with the unresolvable-graph error instead. -/
theorem c4_self_reference_counterexample :
    ([ConstantPoolEntry.Zero,
      ConstantPoolEntry.NameAndType (ConstantPoolRef.Unresolved 2)
        (ConstantPoolRef.Unresolved 1),
      ConstantPoolEntry.NameAndType (ConstantPoolRef.Unresolved 1)
        (ConstantPoolRef.Unresolved 0)] : List ConstantPoolEntry).getD 1
        ConstantPoolEntry.Zero =
      ConstantPoolEntry.NameAndType (ConstantPoolRef.Unresolved 2)
        (ConstantPoolRef.Unresolved 1) ∧
    resolve_constant_pool
      [ConstantPoolEntry.Zero,
       ConstantPoolEntry.NameAndType (ConstantPoolRef.Unresolved 2)
         (ConstantPoolRef.Unresolved 1),
       ConstantPoolEntry.NameAndType (ConstantPoolRef.Unresolved 1)
         (ConstantPoolRef.Unresolved 0)] =
      Except.error "Unable to resolve all constant pool entries" ∧
    ("Unable to resolve all constant pool entries" ≠
      "Constant pool entry at index 1 could not be resolved due to self-reference") := by
  refine ⟨rfl, rfl, ?_⟩
  decide

/-- C4, amended: an unresolved reference whose raw target index equals the
index of the entry containing it fails, when examined, with the
self-reference error identifying that index (never the out-of-bounds or
unresolvable-graph error, even when the index is also out of bounds); an
entry whose first (or only) reference position is such a self-reference fails
its visit with that error, and one whose second position is a self-reference
fails with it provided the first reference resolves (otherwise the second
reference is not examined in that visit). -/
theorem c4_self_reference_amended :
    (∀ (i : Nat) (pool : List ConstantPoolEntry),
      ConstantPoolRef.resolve (ConstantPoolRef.Unresolved i) i pool =
        Except.error ("Constant pool entry at index " ++ toString i ++
          " could not be resolved due to self-reference")) ∧
    (∀ (i : Nat) (pool : List ConstantPoolEntry) (k : ReferenceKind)
        (b : BootstrapMethodRef),
      ConstantPoolEntry.resolve
          (ConstantPoolEntry.ClassInfo (ConstantPoolRef.Unresolved i)) i pool =
        Except.error ("Constant pool entry at index " ++ toString i ++
          " could not be resolved due to self-reference") ∧
      ConstantPoolEntry.resolve
          (ConstantPoolEntry.String (ConstantPoolRef.Unresolved i)) i pool =
        Except.error ("Constant pool entry at index " ++ toString i ++
          " could not be resolved due to self-reference") ∧
      ConstantPoolEntry.resolve
          (ConstantPoolEntry.MethodType (ConstantPoolRef.Unresolved i)) i pool =
        Except.error ("Constant pool entry at index " ++ toString i ++
          " could not be resolved due to self-reference") ∧
      ConstantPoolEntry.resolve
          (ConstantPoolEntry.MethodHandle k (ConstantPoolRef.Unresolved i)) i pool =
        Except.error ("Constant pool entry at index " ++ toString i ++
          " could not be resolved due to self-reference") ∧
      ConstantPoolEntry.resolve
          (ConstantPoolEntry.InvokeDynamic b (ConstantPoolRef.Unresolved i)) i pool =
        Except.error ("Constant pool entry at index " ++ toString i ++
          " could not be resolved due to self-reference")) ∧
    (∀ (i : Nat) (pool : List ConstantPoolEntry) (y : ConstantPoolRef),
      ConstantPoolEntry.resolve
          (ConstantPoolEntry.FieldRef (ConstantPoolRef.Unresolved i) y) i pool =
        Except.error ("Constant pool entry at index " ++ toString i ++
          " could not be resolved due to self-reference") ∧
      ConstantPoolEntry.resolve
          (ConstantPoolEntry.MethodRef (ConstantPoolRef.Unresolved i) y) i pool =
        Except.error ("Constant pool entry at index " ++ toString i ++
          " could not be resolved due to self-reference") ∧
      ConstantPoolEntry.resolve
          (ConstantPoolEntry.InterfaceMethodRef (ConstantPoolRef.Unresolved i) y) i pool =
        Except.error ("Constant pool entry at index " ++ toString i ++
          " could not be resolved due to self-reference") ∧
      ConstantPoolEntry.resolve
          (ConstantPoolEntry.NameAndType (ConstantPoolRef.Unresolved i) y) i pool =
        Except.error ("Constant pool entry at index " ++ toString i ++
          " could not be resolved due to self-reference")) ∧
    (∀ (i : Nat) (pool : List ConstantPoolEntry) (x x2 : ConstantPoolRef),
      ConstantPoolRef.resolve x i pool = Except.ok (x2, true) →
      ConstantPoolEntry.resolve
          (ConstantPoolEntry.FieldRef x (ConstantPoolRef.Unresolved i)) i pool =
        Except.error ("Constant pool entry at index " ++ toString i ++
          " could not be resolved due to self-reference") ∧
      ConstantPoolEntry.resolve
          (ConstantPoolEntry.MethodRef x (ConstantPoolRef.Unresolved i)) i pool =
        Except.error ("Constant pool entry at index " ++ toString i ++
          " could not be resolved due to self-reference") ∧
      ConstantPoolEntry.resolve
          (ConstantPoolEntry.InterfaceMethodRef x (ConstantPoolRef.Unresolved i)) i pool =
        Except.error ("Constant pool entry at index " ++ toString i ++
          " could not be resolved due to self-reference") ∧
      ConstantPoolEntry.resolve
          (ConstantPoolEntry.NameAndType x (ConstantPoolRef.Unresolved i)) i pool =
        Except.error ("Constant pool entry at index " ++ toString i ++
          " could not be resolved due to self-reference")) := by
  refine ⟨?_, ?_, ?_, ?_⟩
  · intro i pool
    simp [ConstantPoolRef.resolve]
  · intro i pool k b
    refine ⟨?_, ?_, ?_, ?_, ?_⟩ <;>
      simp [ConstantPoolEntry.resolve, resolveRef1, ConstantPoolRef.resolve]
  · intro i pool y
    refine ⟨?_, ?_, ?_, ?_⟩ <;>
      simp [ConstantPoolEntry.resolve, resolveRefs2, ConstantPoolRef.resolve]
  · intro i pool x x2 hx
    refine ⟨?_, ?_, ?_, ?_⟩ <;>
    · simp only [ConstantPoolEntry.resolve, resolveRefs2, hx]
      simp [ConstantPoolRef.resolve]

/-- Witness for C4's amended theorem: a FieldRef at index 1 whose first
reference is already resolved and whose second reference targets index 1
fails its visit with the self-reference error. -/
theorem c4_self_reference_amended_witness :
    ConstantPoolRef.resolve (ConstantPoolRef.Resolved 0) 1 [] =
      Except.ok (ConstantPoolRef.Resolved 0, true) ∧
    ConstantPoolEntry.resolve
        (ConstantPoolEntry.FieldRef (ConstantPoolRef.Resolved 0)
          (ConstantPoolRef.Unresolved 1)) 1 [] =
      Except.error ("Constant pool entry at index " ++ toString 1 ++
        " could not be resolved due to self-reference") :=
  ⟨rfl, (c4_self_reference_amended.2.2.2 1 [] (ConstantPoolRef.Resolved 0)
    (ConstantPoolRef.Resolved 0) rfl).1⟩

/-- C5: during resolution of an entry (whose index is necessarily within the
pool), an unresolved reference whose raw index is at least the pool length
fails immediately with the out-of-bounds error naming the referring entry's
index and the offending target index; and a reference that a resolve call
turns into the Resolved state points at its raw index, which is strictly
below the pool length. -/
theorem c5_out_of_bounds :
    (∀ (i t : Nat) (pool : List ConstantPoolEntry),
      pool.length ≤ t → i < pool.length →
      ConstantPoolRef.resolve (ConstantPoolRef.Unresolved t) i pool =
        Except.error ("Constant pool entry at index " ++ toString i ++
          " references out-of-bounds index " ++ toString t)) ∧
    (∀ (t i : Nat) (pool : List ConstantPoolEntry) (r2 : ConstantPoolRef) (b : Bool),
      ConstantPoolRef.resolve (ConstantPoolRef.Unresolved t) i pool =
        Except.ok (r2, b) →
      ∀ t2, r2 = ConstantPoolRef.Resolved t2 → t2 = t ∧ t2 < pool.length) := by
  constructor
  · intro i t pool h1 h2
    have hne : t ≠ i := by omega
    simp only [ConstantPoolRef.resolve, if_neg hne, if_pos h1]
  · intro t i pool r2 b h t2 hr
    subst hr
    simp only [ConstantPoolRef.resolve] at h
    split_ifs at h with h1 h2 h3
    · simp only [Except.ok.injEq, Prod.mk.injEq,
        ConstantPoolRef.Resolved.injEq] at h
      obtain ⟨hA, hB⟩ := h
      exact ⟨hA.symm, by omega⟩
    · simp at h

/-- Witness for C5: in a one-entry pool, entry 0 referencing raw index 1
fails with the out-of-bounds error; and a reference to index 1 resolved
against a two-entry pool lands on an index below the pool length. -/
theorem c5_out_of_bounds_witness :
    (([ConstantPoolEntry.Zero] : List ConstantPoolEntry).length ≤ 1 ∧
     0 < ([ConstantPoolEntry.Zero] : List ConstantPoolEntry).length ∧
     ConstantPoolRef.resolve (ConstantPoolRef.Unresolved 1) 0 [ConstantPoolEntry.Zero] =
       Except.error ("Constant pool entry at index " ++ toString 0 ++
         " references out-of-bounds index " ++ toString 1)) ∧
    (1 = 1 ∧ 1 < ([ConstantPoolEntry.Zero, ConstantPoolEntry.Utf8 "x"] :
       List ConstantPoolEntry).length) :=
  ⟨⟨by decide, by decide, c5_out_of_bounds.1 0 1 [ConstantPoolEntry.Zero]
      (by decide) (by decide)⟩,
   c5_out_of_bounds.2 1 0 [ConstantPoolEntry.Zero, ConstantPoolEntry.Utf8 "x"]
     (ConstantPoolRef.Resolved 1) true rfl 1 rfl⟩

/-- C9: read_cp_ref on raw index 0 of a pool headed by the Zero sentinel
returns the sentinel entry when the allowed set contains the ZERO bit, and
fails with the "Unexpected constant pool reference type for" error when it
does not; a raw index at least the pool length fails with the out-of-bounds
error; the CLASS_OR_ZERO set contains ZERO while the plain CLASS_INFO set
does not. -/
theorem c9_read_cp_ref_zero :
    (∀ (bytes : List Nat) (ix : Nat) (pool : List ConstantPoolEntry)
        (allowed ix1 : Nat),
      read_u2 bytes ix = Except.ok (0, ix1) →
      pool.getD 0 ConstantPoolEntry.Zero = ConstantPoolEntry.Zero →
      0 < pool.length →
      (ConstantPoolEntryTypes.contains allowed ConstantPoolEntryTypes.ZERO = true →
        read_cp_ref bytes ix pool allowed = Except.ok (ConstantPoolEntry.Zero, ix1)) ∧
      (ConstantPoolEntryTypes.contains allowed ConstantPoolEntryTypes.ZERO = false →
        read_cp_ref bytes ix pool allowed =
          Except.error "Unexpected constant pool reference type for")) ∧
    (∀ (bytes : List Nat) (ix : Nat) (pool : List ConstantPoolEntry)
        (allowed n ix1 : Nat),
      read_u2 bytes ix = Except.ok (n, ix1) →
      pool.length ≤ n →
      read_cp_ref bytes ix pool allowed =
        Except.error ("Out-of-bounds index " ++ toString n ++
          " in constant pool reference for")) ∧
    ConstantPoolEntryTypes.contains ConstantPoolEntryTypes.CLASS_OR_ZERO
      ConstantPoolEntryTypes.ZERO = true ∧
    ConstantPoolEntryTypes.contains ConstantPoolEntryTypes.CLASS_INFO
      ConstantPoolEntryTypes.ZERO = false := by
  refine ⟨?_, ?_, by decide, by decide⟩
  · intro bytes ix pool allowed ix1 hr hz hlen
    have hnot : ¬ pool.length ≤ 0 := by omega
    constructor
    · intro hc
      simp only [read_cp_ref, hr, if_neg hnot, hz, ConstantPoolEntry.ensure_type,
        ConstantPoolEntry.get_type, if_pos hc]
    · intro hc
      simp only [read_cp_ref, hr, if_neg hnot, hz, ConstantPoolEntry.ensure_type,
        ConstantPoolEntry.get_type, hc, if_false, err, Bool.false_eq_true]
  · intro bytes ix pool allowed n ix1 hr hn
    simp only [read_cp_ref, hr, if_pos hn]

/-- Witness for C9: reading raw index 0 from the byte pair 00 00 against a
two-entry pool succeeds with the Zero sentinel under CLASS_OR_ZERO, fails
with the type error under CLASS_INFO, and reading raw index 2 fails with the
out-of-bounds error. -/
theorem c9_read_cp_ref_zero_witness :
    (read_u2 [0, 0] 0 = Except.ok (0, 2) ∧
     ([ConstantPoolEntry.Zero, ConstantPoolEntry.Utf8 "x"] :
       List ConstantPoolEntry).getD 0 ConstantPoolEntry.Zero = ConstantPoolEntry.Zero ∧
     0 < ([ConstantPoolEntry.Zero, ConstantPoolEntry.Utf8 "x"] :
       List ConstantPoolEntry).length ∧
     read_cp_ref [0, 0] 0 [ConstantPoolEntry.Zero, ConstantPoolEntry.Utf8 "x"]
       ConstantPoolEntryTypes.CLASS_OR_ZERO =
       Except.ok (ConstantPoolEntry.Zero, 2) ∧
     read_cp_ref [0, 0] 0 [ConstantPoolEntry.Zero, ConstantPoolEntry.Utf8 "x"]
       ConstantPoolEntryTypes.CLASS_INFO =
       Except.error "Unexpected constant pool reference type for") ∧
    (read_u2 [0, 2] 0 = Except.ok (2, 2) ∧
     read_cp_ref [0, 2] 0 [ConstantPoolEntry.Zero, ConstantPoolEntry.Utf8 "x"]
       ConstantPoolEntryTypes.CLASS_OR_ZERO =
       Except.error ("Out-of-bounds index " ++ toString 2 ++
         " in constant pool reference for")) :=
  ⟨⟨rfl, rfl, by decide,
    (c9_read_cp_ref_zero.1 [0, 0] 0
      [ConstantPoolEntry.Zero, ConstantPoolEntry.Utf8 "x"]
      ConstantPoolEntryTypes.CLASS_OR_ZERO 2 rfl rfl (by decide)).1 (by decide),
    (c9_read_cp_ref_zero.1 [0, 0] 0
      [ConstantPoolEntry.Zero, ConstantPoolEntry.Utf8 "x"]
      ConstantPoolEntryTypes.CLASS_INFO 2 rfl rfl (by decide)).2 (by decide)⟩,
   ⟨rfl, c9_read_cp_ref_zero.2.1 [0, 2] 0
     [ConstantPoolEntry.Zero, ConstantPoolEntry.Utf8 "x"]
     ConstantPoolEntryTypes.CLASS_OR_ZERO 2 2 rfl (by decide)⟩⟩

/-- C10: for every entry carrying two references, when the first reference's
resolve call reports false the entry's visit returns with the second
reference untouched (it is not examined, so no self-reference or
out-of-bounds error can arise from it), and when the first reference's
resolve call errors the visit propagates that error without examining the
second reference. -/
theorem c10_second_reference_untouched :
    (∀ (i : Nat) (pool : List ConstantPoolEntry) (x y x2 : ConstantPoolRef),
      ConstantPoolRef.resolve x i pool = Except.ok (x2, false) →
      ConstantPoolEntry.resolve (ConstantPoolEntry.FieldRef x y) i pool =
        Except.ok (ConstantPoolEntry.FieldRef x2 y, false) ∧
      ConstantPoolEntry.resolve (ConstantPoolEntry.MethodRef x y) i pool =
        Except.ok (ConstantPoolEntry.MethodRef x2 y, false) ∧
      ConstantPoolEntry.resolve (ConstantPoolEntry.InterfaceMethodRef x y) i pool =
        Except.ok (ConstantPoolEntry.InterfaceMethodRef x2 y, false) ∧
      ConstantPoolEntry.resolve (ConstantPoolEntry.NameAndType x y) i pool =
        Except.ok (ConstantPoolEntry.NameAndType x2 y, false)) ∧
    (∀ (i : Nat) (pool : List ConstantPoolEntry) (x y : ConstantPoolRef)
        (msg : String),
      ConstantPoolRef.resolve x i pool = Except.error msg →
      ConstantPoolEntry.resolve (ConstantPoolEntry.FieldRef x y) i pool =
        Except.error msg ∧
      ConstantPoolEntry.resolve (ConstantPoolEntry.MethodRef x y) i pool =
        Except.error msg ∧
      ConstantPoolEntry.resolve (ConstantPoolEntry.InterfaceMethodRef x y) i pool =
        Except.error msg ∧
      ConstantPoolEntry.resolve (ConstantPoolEntry.NameAndType x y) i pool =
        Except.error msg) := by
  constructor
  · intro i pool x y x2 hx
    refine ⟨?_, ?_, ?_, ?_⟩ <;>
      simp only [ConstantPoolEntry.resolve, resolveRefs2, hx, Bool.false_eq_true,
        if_false]
  · intro i pool x y msg hx
    refine ⟨?_, ?_, ?_, ?_⟩ <;>
      simp only [ConstantPoolEntry.resolve, resolveRefs2, hx]

/-- Witness for C10: a FieldRef at index 0 whose first reference points at a
not-yet-resolved entry keeps its (self-referencing!) second reference
untouched and reports false; with an out-of-bounds first reference the visit
propagates that error. -/
theorem c10_second_reference_untouched_witness :
    (ConstantPoolRef.resolve (ConstantPoolRef.Unresolved 1) 0
       [ConstantPoolEntry.Zero,
        ConstantPoolEntry.ClassInfo (ConstantPoolRef.Unresolved 0)] =
       Except.ok (ConstantPoolRef.Unresolved 1, false) ∧
     ConstantPoolEntry.resolve
         (ConstantPoolEntry.FieldRef (ConstantPoolRef.Unresolved 1)
           (ConstantPoolRef.Unresolved 0)) 0
         [ConstantPoolEntry.Zero,
          ConstantPoolEntry.ClassInfo (ConstantPoolRef.Unresolved 0)] =
       Except.ok (ConstantPoolEntry.FieldRef (ConstantPoolRef.Unresolved 1)
         (ConstantPoolRef.Unresolved 0), false)) ∧
    (ConstantPoolRef.resolve (ConstantPoolRef.Unresolved 5) 0 [ConstantPoolEntry.Zero] =
       Except.error ("Constant pool entry at index " ++ toString 0 ++
         " references out-of-bounds index " ++ toString 5) ∧
     ConstantPoolEntry.resolve
         (ConstantPoolEntry.NameAndType (ConstantPoolRef.Unresolved 5)
           (ConstantPoolRef.Unresolved 0)) 0 [ConstantPoolEntry.Zero] =
       Except.error ("Constant pool entry at index " ++ toString 0 ++
         " references out-of-bounds index " ++ toString 5)) :=
  ⟨⟨rfl, (c10_second_reference_untouched.1 0
      [ConstantPoolEntry.Zero,
       ConstantPoolEntry.ClassInfo (ConstantPoolRef.Unresolved 0)]
      (ConstantPoolRef.Unresolved 1) (ConstantPoolRef.Unresolved 0)
      (ConstantPoolRef.Unresolved 1) rfl).1⟩,
   ⟨rfl, (c10_second_reference_untouched.2 0 [ConstantPoolEntry.Zero]
      (ConstantPoolRef.Unresolved 5) (ConstantPoolRef.Unresolved 0)
      ("Constant pool entry at index " ++ toString 0 ++
        " references out-of-bounds index " ++ toString 5) rfl).2.2.2⟩⟩

/-- Helper: ensure_type succeeds exactly when the target's kind bit is in the
allowed set. -/
theorem ensure_type_ok_iff (e : ConstantPoolEntry) (S : Nat) :
    (ConstantPoolEntry.ensure_type e S = Except.ok true) ↔
    ConstantPoolEntryTypes.contains S e.get_type = true := by
  by_cases h : ConstantPoolEntryTypes.contains S e.get_type = true
  · simp [ConstantPoolEntry.ensure_type, h]
  · simp [ConstantPoolEntry.ensure_type, h, err]

/-- Helper: ensure_type fails with the generic type error when the target's
kind bit is missing from the allowed set. -/
theorem ensure_type_err (e : ConstantPoolEntry) (S : Nat)
    (h : ConstantPoolEntryTypes.contains S e.get_type = false) :
    ConstantPoolEntry.ensure_type e S =
      Except.error "Unexpected constant pool reference type for" := by
  simp [ConstantPoolEntry.ensure_type, h, err]

/-- Helper: ensure_type either succeeds with true or fails with the generic
type error. -/
theorem ensure_type_dichotomy (e : ConstantPoolEntry) (S : Nat) :
    ConstantPoolEntry.ensure_type e S = Except.ok true ∨
    ConstantPoolEntry.ensure_type e S =
      Except.error "Unexpected constant pool reference type for" := by
  by_cases h : ConstantPoolEntryTypes.contains S e.get_type = true
  · exact Or.inl ((ensure_type_ok_iff e S).mpr h)
  · exact Or.inr (ensure_type_err e S (by simpa using h))

/-- Helper: the FIELD_REF mask admits exactly the FieldRef entries. -/
theorem contains_field_ref_iff (e : ConstantPoolEntry) :
    (ConstantPoolEntryTypes.contains ConstantPoolEntryTypes.FIELD_REF
      e.get_type = true) ↔ ∃ x y, e = ConstantPoolEntry.FieldRef x y := by
  cases e <;> simp [ConstantPoolEntry.get_type] <;> decide

/-- Helper: the METHOD_REF mask admits exactly the MethodRef entries. -/
theorem contains_method_ref_iff (e : ConstantPoolEntry) :
    (ConstantPoolEntryTypes.contains ConstantPoolEntryTypes.METHOD_REF
      e.get_type = true) ↔ ∃ x y, e = ConstantPoolEntry.MethodRef x y := by
  cases e <;> simp [ConstantPoolEntry.get_type] <;> decide

/-- Helper: the INTERFACE_METHOD_REF mask admits exactly the
InterfaceMethodRef entries. -/
theorem contains_interface_method_ref_iff (e : ConstantPoolEntry) :
    (ConstantPoolEntryTypes.contains ConstantPoolEntryTypes.INTERFACE_METHOD_REF
      e.get_type = true) ↔ ∃ x y, e = ConstantPoolEntry.InterfaceMethodRef x y := by
  cases e <;> simp [ConstantPoolEntry.get_type] <;> decide

/-- Helper: the NEW_METHOD_REFS mask admits exactly the MethodRef and
InterfaceMethodRef entries. -/
theorem contains_new_method_refs_iff (e : ConstantPoolEntry) :
    (ConstantPoolEntryTypes.contains ConstantPoolEntryTypes.NEW_METHOD_REFS
      e.get_type = true) ↔
    ((∃ x y, e = ConstantPoolEntry.MethodRef x y) ∨
     (∃ x y, e = ConstantPoolEntry.InterfaceMethodRef x y)) := by
  cases e <;> simp [ConstantPoolEntry.get_type] <;> decide

/-- C6: validating a MethodHandle whose reference kind is invokestatic or
invokespecial accepts a MethodRef target at every major version, accepts an
InterfaceMethodRef target exactly when the major version is at least 52
(failing with the type-mismatch error below 52), and rejects every other
entry kind at every version; for the remaining reference kinds the required
target kind is FieldRef (getfield/getstatic/putfield/putstatic), MethodRef
(invokevirtual/newinvokespecial) or InterfaceMethodRef (invokeinterface),
independent of the version; and validation of a MethodHandle always either
succeeds or fails with the type-mismatch error. -/
theorem c6_methodhandle_versioning :
    ∀ (pool : List ConstantPoolEntry) (t v : Nat) (e : ConstantPoolEntry),
      pool.getD t ConstantPoolEntry.Zero = e →
      (∀ k, (k = ReferenceKind.InvokeStatic ∨ k = ReferenceKind.InvokeSpecial) →
        ((∃ x y, e = ConstantPoolEntry.MethodRef x y) →
          ConstantPoolEntry.validate
            (ConstantPoolEntry.MethodHandle k (ConstantPoolRef.Resolved t)) pool v =
            Except.ok true) ∧
        ((∃ x y, e = ConstantPoolEntry.InterfaceMethodRef x y) →
          ((ConstantPoolEntry.validate
              (ConstantPoolEntry.MethodHandle k (ConstantPoolRef.Resolved t)) pool v =
              Except.ok true) ↔ 52 ≤ v) ∧
          (v < 52 →
            ConstantPoolEntry.validate
              (ConstantPoolEntry.MethodHandle k (ConstantPoolRef.Resolved t)) pool v =
              Except.error "Unexpected constant pool reference type for")) ∧
        ((∀ x y, e ≠ ConstantPoolEntry.MethodRef x y) →
         (∀ x y, e ≠ ConstantPoolEntry.InterfaceMethodRef x y) →
          ConstantPoolEntry.validate
            (ConstantPoolEntry.MethodHandle k (ConstantPoolRef.Resolved t)) pool v =
            Except.error "Unexpected constant pool reference type for")) ∧
      (∀ k, (k = ReferenceKind.GetField ∨ k = ReferenceKind.GetStatic ∨
             k = ReferenceKind.PutField ∨ k = ReferenceKind.PutStatic) →
        (ConstantPoolEntry.validate
            (ConstantPoolEntry.MethodHandle k (ConstantPoolRef.Resolved t)) pool v =
            Except.ok true ↔ ∃ x y, e = ConstantPoolEntry.FieldRef x y)) ∧
      (∀ k, (k = ReferenceKind.InvokeVirtual ∨ k = ReferenceKind.NewInvokeSpecial) →
        (ConstantPoolEntry.validate
            (ConstantPoolEntry.MethodHandle k (ConstantPoolRef.Resolved t)) pool v =
            Except.ok true ↔ ∃ x y, e = ConstantPoolEntry.MethodRef x y)) ∧
      (ConstantPoolEntry.validate
          (ConstantPoolEntry.MethodHandle ReferenceKind.InvokeInterface
            (ConstantPoolRef.Resolved t)) pool v =
          Except.ok true ↔ ∃ x y, e = ConstantPoolEntry.InterfaceMethodRef x y) ∧
      (∀ k, ConstantPoolEntry.validate
          (ConstantPoolEntry.MethodHandle k (ConstantPoolRef.Resolved t)) pool v =
          Except.ok true ∨
        ConstantPoolEntry.validate
          (ConstantPoolEntry.MethodHandle k (ConstantPoolRef.Resolved t)) pool v =
          Except.error "Unexpected constant pool reference type for") := by
  intro pool t v e he
  have hred : ∀ (k : ReferenceKind) (S : Nat),
      (match k with
        | ReferenceKind.GetField => ConstantPoolEntryTypes.FIELD_REF
        | ReferenceKind.GetStatic => ConstantPoolEntryTypes.FIELD_REF
        | ReferenceKind.PutField => ConstantPoolEntryTypes.FIELD_REF
        | ReferenceKind.PutStatic => ConstantPoolEntryTypes.FIELD_REF
        | ReferenceKind.InvokeVirtual => ConstantPoolEntryTypes.METHOD_REF
        | ReferenceKind.NewInvokeSpecial => ConstantPoolEntryTypes.METHOD_REF
        | ReferenceKind.InvokeStatic =>
            if v < 52 then ConstantPoolEntryTypes.METHOD_REF
            else ConstantPoolEntryTypes.NEW_METHOD_REFS
        | ReferenceKind.InvokeSpecial =>
            if v < 52 then ConstantPoolEntryTypes.METHOD_REF
            else ConstantPoolEntryTypes.NEW_METHOD_REFS
        | ReferenceKind.InvokeInterface =>
            ConstantPoolEntryTypes.INTERFACE_METHOD_REF) = S →
      ConstantPoolEntry.validate
        (ConstantPoolEntry.MethodHandle k (ConstantPoolRef.Resolved t)) pool v =
        ConstantPoolEntry.ensure_type e S := by
    intro k S hS
    simp only [ConstantPoolEntry.validate, ConstantPoolRef.ensure_type, he, ← hS]
  refine ⟨?_, ?_, ?_, ?_, ?_⟩
  · intro k hk
    have hv : ConstantPoolEntry.validate
        (ConstantPoolEntry.MethodHandle k (ConstantPoolRef.Resolved t)) pool v =
        ConstantPoolEntry.ensure_type e
          (if v < 52 then ConstantPoolEntryTypes.METHOD_REF
           else ConstantPoolEntryTypes.NEW_METHOD_REFS) := by
      rcases hk with rfl | rfl <;> exact hred _ _ rfl
    refine ⟨?_, ?_, ?_⟩
    · rintro ⟨x, y, rfl⟩
      rw [hv]
      by_cases h52 : v < 52
      · rw [if_pos h52, ensure_type_ok_iff]
        simp only [ConstantPoolEntry.get_type]
        decide
      · rw [if_neg h52, ensure_type_ok_iff]
        simp only [ConstantPoolEntry.get_type]
        decide
    · rintro ⟨x, y, rfl⟩
      constructor
      · rw [hv]
        by_cases h52 : v < 52
        · rw [if_pos h52, ensure_type_ok_iff]
          constructor
          · intro hcon
            exact absurd hcon (by simp only [ConstantPoolEntry.get_type]; decide)
          · intro hge
            omega
        · rw [if_neg h52, ensure_type_ok_iff]
          constructor
          · intro _
            omega
          · intro _
            simp only [ConstantPoolEntry.get_type]
            decide
      · intro h52
        rw [hv, if_pos h52]
        exact ensure_type_err _ _
          (by simp only [ConstantPoolEntry.get_type]; decide)
    · intro hn1 hn2
      rw [hv]
      have hmask : ConstantPoolEntryTypes.contains
          ConstantPoolEntryTypes.METHOD_REF e.get_type = false ∧
          ConstantPoolEntryTypes.contains
            ConstantPoolEntryTypes.NEW_METHOD_REFS e.get_type = false := by
        cases e with
        | MethodRef x y => exact absurd rfl (hn1 x y)
        | InterfaceMethodRef x y => exact absurd rfl (hn2 x y)
        | _ =>
            exact ⟨by simp only [ConstantPoolEntry.get_type]; decide,
              by simp only [ConstantPoolEntry.get_type]; decide⟩
      by_cases h52 : v < 52
      · rw [if_pos h52]
        exact ensure_type_err _ _ hmask.1
      · rw [if_neg h52]
        exact ensure_type_err _ _ hmask.2
  · intro k hk
    have hv : ConstantPoolEntry.validate
        (ConstantPoolEntry.MethodHandle k (ConstantPoolRef.Resolved t)) pool v =
        ConstantPoolEntry.ensure_type e ConstantPoolEntryTypes.FIELD_REF := by
      rcases hk with rfl | rfl | rfl | rfl <;> exact hred _ _ rfl
    rw [hv, ensure_type_ok_iff]
    exact contains_field_ref_iff e
  · intro k hk
    have hv : ConstantPoolEntry.validate
        (ConstantPoolEntry.MethodHandle k (ConstantPoolRef.Resolved t)) pool v =
        ConstantPoolEntry.ensure_type e ConstantPoolEntryTypes.METHOD_REF := by
      rcases hk with rfl | rfl <;> exact hred _ _ rfl
    rw [hv, ensure_type_ok_iff]
    exact contains_method_ref_iff e
  · rw [hred ReferenceKind.InvokeInterface _ rfl, ensure_type_ok_iff]
    exact contains_interface_method_ref_iff e
  · intro k
    cases k
    case InvokeStatic =>
      rw [hred ReferenceKind.InvokeStatic _ rfl]
      exact ensure_type_dichotomy _ _
    case InvokeSpecial =>
      rw [hred ReferenceKind.InvokeSpecial _ rfl]
      exact ensure_type_dichotomy _ _
    all_goals rw [hred _ _ rfl]
    all_goals exact ensure_type_dichotomy _ _

/-- Witness for C6: a MethodHandle with tag invokestatic whose target is an
InterfaceMethodRef validates at major version 52 and fails with the
type-mismatch error at major version 51, with all other fields identical. -/
theorem c6_methodhandle_versioning_witness :
    (([ConstantPoolEntry.Zero,
       ConstantPoolEntry.InterfaceMethodRef (ConstantPoolRef.Resolved 0)
         (ConstantPoolRef.Resolved 0)] : List ConstantPoolEntry).getD 1
       ConstantPoolEntry.Zero =
      ConstantPoolEntry.InterfaceMethodRef (ConstantPoolRef.Resolved 0)
        (ConstantPoolRef.Resolved 0)) ∧
    ConstantPoolEntry.validate
      (ConstantPoolEntry.MethodHandle ReferenceKind.InvokeStatic
        (ConstantPoolRef.Resolved 1))
      [ConstantPoolEntry.Zero,
       ConstantPoolEntry.InterfaceMethodRef (ConstantPoolRef.Resolved 0)
         (ConstantPoolRef.Resolved 0)] 52 = Except.ok true ∧
    ConstantPoolEntry.validate
      (ConstantPoolEntry.MethodHandle ReferenceKind.InvokeStatic
        (ConstantPoolRef.Resolved 1))
      [ConstantPoolEntry.Zero,
       ConstantPoolEntry.InterfaceMethodRef (ConstantPoolRef.Resolved 0)
         (ConstantPoolRef.Resolved 0)] 51 =
      Except.error "Unexpected constant pool reference type for" :=
  ⟨rfl,
   ((c6_methodhandle_versioning
      [ConstantPoolEntry.Zero,
       ConstantPoolEntry.InterfaceMethodRef (ConstantPoolRef.Resolved 0)
         (ConstantPoolRef.Resolved 0)] 1 52
      (ConstantPoolEntry.InterfaceMethodRef (ConstantPoolRef.Resolved 0)
        (ConstantPoolRef.Resolved 0)) rfl).1 ReferenceKind.InvokeStatic
      (Or.inl rfl)).2.1 ⟨ConstantPoolRef.Resolved 0, ConstantPoolRef.Resolved 0,
        rfl⟩ |>.1.mpr (by omega),
   ((c6_methodhandle_versioning
      [ConstantPoolEntry.Zero,
       ConstantPoolEntry.InterfaceMethodRef (ConstantPoolRef.Resolved 0)
         (ConstantPoolRef.Resolved 0)] 1 51
      (ConstantPoolEntry.InterfaceMethodRef (ConstantPoolRef.Resolved 0)
        (ConstantPoolRef.Resolved 0)) rfl).1 ReferenceKind.InvokeStatic
      (Or.inl rfl)).2.1 ⟨ConstantPoolRef.Resolved 0, ConstantPoolRef.Resolved 0,
        rfl⟩ |>.2 (by omega)⟩

/-- Helper: the validation loop, started anywhere, reports the first failing
entry from its start index with that entry's index appended to the error. -/
theorem validateAux_first_error :
    ∀ (k : Nat) (pool : List ConstantPoolEntry) (v i i0 : Nat) (msg : String),
      k + i = pool.length →
      i ≤ i0 → i0 < pool.length →
      (∀ j, i ≤ j → j < i0 →
        (pool.getD j ConstantPoolEntry.Zero).validate pool v = Except.ok true) →
      (pool.getD i0 ConstantPoolEntry.Zero).validate pool v = Except.error msg →
      validateAux k pool v i =
        Except.error (msg ++ " constant pool entry " ++ toString i0) := by
  intro k
  induction k with
  | zero =>
    intro pool v i i0 msg hk hi hi0 hok herr
    exfalso
    omega
  | succ k ih =>
    intro pool v i i0 msg hk hi hi0 hok herr
    by_cases heq : i = i0
    · subst heq
      simp only [validateAux, herr]
    · have hlt : i < i0 := by omega
      have hvi : (pool.getD i ConstantPoolEntry.Zero).validate pool v =
          Except.ok true := hok i (le_refl i) hlt
      simp only [validateAux, hvi]
      exact ih pool v (i + 1) i0 msg (by omega) (by omega) hi0
        (fun j hj1 hj2 => hok j (by omega) hj2) herr

/-- C7: validate_constant_pool visits entries in pool index order and returns
the first violation, annotated with the index of the referring entry; entries
with no outgoing references always validate successfully; and in the
concrete pool whose entry 1 is a ClassInfo resolving to the Float entry at
index 2, validation fails with the type-mismatch error naming entry 1, while
the Float entry itself validates successfully. -/
theorem c7_validate_first_violation :
    (∀ (pool : List ConstantPoolEntry) (v i0 : Nat) (msg : String),
      i0 < pool.length →
      (∀ j, j < i0 →
        (pool.getD j ConstantPoolEntry.Zero).validate pool v = Except.ok true) →
      (pool.getD i0 ConstantPoolEntry.Zero).validate pool v = Except.error msg →
      validate_constant_pool pool v =
        Except.error (msg ++ " constant pool entry " ++ toString i0)) ∧
    (∀ (pool : List ConstantPoolEntry) (v : Nat) (s : String) (n : Int)
        (bits : Nat) (l : Int) (d : Nat),
      ConstantPoolEntry.Zero.validate pool v = Except.ok true ∧
      (ConstantPoolEntry.Utf8 s).validate pool v = Except.ok true ∧
      (ConstantPoolEntry.Integer n).validate pool v = Except.ok true ∧
      (ConstantPoolEntry.Float bits).validate pool v = Except.ok true ∧
      (ConstantPoolEntry.Long l).validate pool v = Except.ok true ∧
      (ConstantPoolEntry.Double d).validate pool v = Except.ok true ∧
      ConstantPoolEntry.Unused.validate pool v = Except.ok true) ∧
    (∀ v, validate_constant_pool
        [ConstantPoolEntry.Zero,
         ConstantPoolEntry.ClassInfo (ConstantPoolRef.Resolved 2),
         ConstantPoolEntry.Float 0] v =
        Except.error
          "Unexpected constant pool reference type for constant pool entry 1" ∧
      (ConstantPoolEntry.Float 0).validate
        [ConstantPoolEntry.Zero,
         ConstantPoolEntry.ClassInfo (ConstantPoolRef.Resolved 2),
         ConstantPoolEntry.Float 0] v = Except.ok true) := by
  refine ⟨?_, ?_, ?_⟩
  · intro pool v i0 msg hi0 hok herr
    exact validateAux_first_error pool.length pool v 0 i0 msg (by omega)
      (by omega) hi0 (fun j hj1 hj2 => hok j hj2) herr
  · intro pool v s n bits l d
    exact ⟨rfl, rfl, rfl, rfl, rfl, rfl, rfl⟩
  · intro v
    exact ⟨rfl, rfl⟩

/-- Witness for C7: the first-violation lemma applied to the concrete
ClassInfo-names-a-Float pool at index 1. -/
theorem c7_validate_first_violation_witness :
    (1 < ([ConstantPoolEntry.Zero,
          ConstantPoolEntry.ClassInfo (ConstantPoolRef.Resolved 2),
          ConstantPoolEntry.Float 0] : List ConstantPoolEntry).length ∧
     (([ConstantPoolEntry.Zero,
        ConstantPoolEntry.ClassInfo (ConstantPoolRef.Resolved 2),
        ConstantPoolEntry.Float 0] : List ConstantPoolEntry).getD 1
        ConstantPoolEntry.Zero).validate
       [ConstantPoolEntry.Zero,
        ConstantPoolEntry.ClassInfo (ConstantPoolRef.Resolved 2),
        ConstantPoolEntry.Float 0] 52 =
       Except.error "Unexpected constant pool reference type for") ∧
    validate_constant_pool
      [ConstantPoolEntry.Zero,
       ConstantPoolEntry.ClassInfo (ConstantPoolRef.Resolved 2),
       ConstantPoolEntry.Float 0] 52 =
      Except.error
        "Unexpected constant pool reference type for constant pool entry 1" :=
  ⟨⟨by decide, rfl⟩,
   c7_validate_first_violation.1
     [ConstantPoolEntry.Zero,
      ConstantPoolEntry.ClassInfo (ConstantPoolRef.Resolved 2),
      ConstantPoolEntry.Float 0] 52 1
     "Unexpected constant pool reference type for" (by decide)
     (by
       intro j hj
       have hj0 : j = 0 := by omega
       subst hj0
       rfl)
     rfl⟩

/-- Helper: the decode loop only appends entries to its accumulator. -/
theorem readCPLoop_extends :
    ∀ (k : Nat) (bytes : List Nat) (ix cp_ix count : Nat)
      (acc res : List ConstantPoolEntry) (ixf : Nat),
      readCPLoop k bytes ix cp_ix count acc = Except.ok (res, ixf) →
      ∃ rest, res = acc ++ rest := by
  intro k
  induction k with
  | zero =>
    intro bytes ix cp_ix count acc res ixf h
    simp only [readCPLoop, Except.ok.injEq, Prod.mk.injEq] at h
    exact ⟨[], by simp [← h.1]⟩
  | succ k ih =>
    intro bytes ix cp_ix count acc res ixf h
    simp only [readCPLoop] at h
    by_cases hc : cp_ix < count
    · rw [if_pos hc] at h
      cases hru : read_u1 bytes ix with
      | error e =>
        simp only [hru] at h
        exact Except.noConfusion h
      | ok p =>
        obtain ⟨ct, ix1⟩ := p
        simp only [hru] at h
        cases hre : readEntry ct bytes ix1 with
        | error e =>
          simp only [hre] at h
          exact Except.noConfusion h
        | ok q =>
          obtain ⟨entry, ix2⟩ := q
          simp only [hre] at h
          by_cases htag : ct = 5 ∨ ct = 6
          · rw [if_pos htag] at h
            obtain ⟨rest, hr⟩ := ih _ _ _ _ _ _ _ h
            exact ⟨[entry, ConstantPoolEntry.Unused] ++ rest, by simp [hr]⟩
          · rw [if_neg htag] at h
            obtain ⟨rest, hr⟩ := ih _ _ _ _ _ _ _ h
            exact ⟨[entry] ++ rest, by simp [hr]⟩
    · rw [if_neg hc] at h
      simp only [Except.ok.injEq, Prod.mk.injEq] at h
      exact ⟨[], by simp [← h.1]⟩

/-- C8: when the decode loop reads a Long (tag 5) or Double (tag 6) at
logical index cp_ix, it pushes the decoded entry immediately followed by one
synthetic Unused entry and continues at logical index cp_ix + 2; with the
accumulator holding cp_ix entries (so the new entry sits at pool index
cp_ix), the final pool has the decoded entry at index cp_ix and the Unused
placeholder at index cp_ix + 1. -/
theorem c8_long_double_unused :
    ∀ (k : Nat) (bytes : List Nat) (ix cp_ix count ix1 : Nat)
      (acc : List ConstantPoolEntry) (tag v ix2 : Nat),
      cp_ix < count →
      read_u1 bytes ix = Except.ok (tag, ix1) →
      read_u8 bytes ix1 = Except.ok (v, ix2) →
      (tag = 5 ∨ tag = 6) →
      (readCPLoop (k + 1) bytes ix cp_ix count acc =
        readCPLoop k bytes ix2 (cp_ix + 2) count
          (acc ++ [if tag = 5 then ConstantPoolEntry.Long (toInt64 v)
                   else ConstantPoolEntry.Double v, ConstantPoolEntry.Unused])) ∧
      (acc.length = cp_ix →
        ∀ (res : List ConstantPoolEntry) (ixf : Nat),
          readCPLoop (k + 1) bytes ix cp_ix count acc = Except.ok (res, ixf) →
          res.getD cp_ix ConstantPoolEntry.Zero =
            (if tag = 5 then ConstantPoolEntry.Long (toInt64 v)
             else ConstantPoolEntry.Double v) ∧
          res.getD (cp_ix + 1) ConstantPoolEntry.Zero = ConstantPoolEntry.Unused) := by
  intro k bytes ix cp_ix count ix1 acc tag v ix2 hc hru hr8 htag
  have hstep : readCPLoop (k + 1) bytes ix cp_ix count acc =
      readCPLoop k bytes ix2 (cp_ix + 2) count
        (acc ++ [if tag = 5 then ConstantPoolEntry.Long (toInt64 v)
                 else ConstantPoolEntry.Double v, ConstantPoolEntry.Unused]) := by
    rcases htag with rfl | rfl <;>
      simp [readCPLoop, hc, hru, readEntry, read_constant_long,
        read_constant_double, hr8]
  refine ⟨hstep, ?_⟩
  intro hlen res ixf hrun
  rw [hstep] at hrun
  obtain ⟨rest, hres⟩ := readCPLoop_extends k bytes ix2 (cp_ix + 2) count _ res ixf hrun
  subst hres
  constructor
  · rw [List.append_assoc, ← hlen,
      List.getD_append_right acc _ ConstantPoolEntry.Zero acc.length (le_refl _)]
    simp
  · rw [List.append_assoc, ← hlen,
      List.getD_append_right acc _ ConstantPoolEntry.Zero (acc.length + 1) (by omega)]
    simp

/-- Witness for C8: decoding the concrete buffer with Integer entries at
indices 1 and 2, a Long at index 3 and a final Integer entry puts the Long at
pool index 3, the Unused placeholder at index 4 and the next real entry at
index 5; the full read_constant_pool pipeline accepts the buffer. -/
theorem c8_long_double_unused_witness :
    (3 < 6 ∧
     read_u1 [3, 0, 0, 0, 1, 3, 0, 0, 0, 2, 5, 0, 0, 0, 0, 0, 0, 0, 3,
       3, 0, 0, 0, 4] 10 = Except.ok (5, 11) ∧
     read_u8 [3, 0, 0, 0, 1, 3, 0, 0, 0, 2, 5, 0, 0, 0, 0, 0, 0, 0, 3,
       3, 0, 0, 0, 4] 11 = Except.ok (3, 19) ∧
     ([ConstantPoolEntry.Zero, ConstantPoolEntry.Integer 1,
       ConstantPoolEntry.Integer 2] : List ConstantPoolEntry).length = 3 ∧
     readCPLoop 4 [3, 0, 0, 0, 1, 3, 0, 0, 0, 2, 5, 0, 0, 0, 0, 0, 0, 0, 3,
       3, 0, 0, 0, 4] 10 3 6
       [ConstantPoolEntry.Zero, ConstantPoolEntry.Integer 1,
        ConstantPoolEntry.Integer 2] =
       Except.ok ([ConstantPoolEntry.Zero, ConstantPoolEntry.Integer 1,
         ConstantPoolEntry.Integer 2, ConstantPoolEntry.Long 3,
         ConstantPoolEntry.Unused, ConstantPoolEntry.Integer 4], 24)) ∧
    ([ConstantPoolEntry.Zero, ConstantPoolEntry.Integer 1,
      ConstantPoolEntry.Integer 2, ConstantPoolEntry.Long 3,
      ConstantPoolEntry.Unused, ConstantPoolEntry.Integer 4] :
      List ConstantPoolEntry).getD 3 ConstantPoolEntry.Zero =
      ConstantPoolEntry.Long 3 ∧
    ([ConstantPoolEntry.Zero, ConstantPoolEntry.Integer 1,
      ConstantPoolEntry.Integer 2, ConstantPoolEntry.Long 3,
      ConstantPoolEntry.Unused, ConstantPoolEntry.Integer 4] :
      List ConstantPoolEntry).getD 4 ConstantPoolEntry.Zero =
      ConstantPoolEntry.Unused ∧
    ([ConstantPoolEntry.Zero, ConstantPoolEntry.Integer 1,
      ConstantPoolEntry.Integer 2, ConstantPoolEntry.Long 3,
      ConstantPoolEntry.Unused, ConstantPoolEntry.Integer 4] :
      List ConstantPoolEntry).getD 5 ConstantPoolEntry.Zero =
      ConstantPoolEntry.Integer 4 ∧
    read_constant_pool [3, 0, 0, 0, 1, 3, 0, 0, 0, 2, 5, 0, 0, 0, 0, 0, 0, 0, 3,
      3, 0, 0, 0, 4] 0 6 52 =
      Except.ok ([ConstantPoolEntry.Zero, ConstantPoolEntry.Integer 1,
        ConstantPoolEntry.Integer 2, ConstantPoolEntry.Long 3,
        ConstantPoolEntry.Unused, ConstantPoolEntry.Integer 4], 24) := by
  have h := (c8_long_double_unused 3
    [3, 0, 0, 0, 1, 3, 0, 0, 0, 2, 5, 0, 0, 0, 0, 0, 0, 0, 3, 3, 0, 0, 0, 4]
    10 3 6 11
    [ConstantPoolEntry.Zero, ConstantPoolEntry.Integer 1,
     ConstantPoolEntry.Integer 2] 5 3 19 (by decide) rfl rfl (Or.inl rfl)).2 rfl
    [ConstantPoolEntry.Zero, ConstantPoolEntry.Integer 1,
     ConstantPoolEntry.Integer 2, ConstantPoolEntry.Long 3,
     ConstantPoolEntry.Unused, ConstantPoolEntry.Integer 4] 24 rfl
  exact ⟨⟨by decide, rfl, rfl, rfl, rfl⟩, h.1, h.2, rfl, rfl⟩

/-- Toolkit: getD after set at the written index. -/
theorem getD_set_self {α : Type} (l : List α) (i : Nat) (a d : α)
    (h : i < l.length) : (l.set i a).getD i d = a := by
  rw [List.getD_eq_getElem?_getD, List.getElem?_set_self h]
  rfl

/-- Toolkit: getD after set at a different index. -/
theorem getD_set_ne {α : Type} (l : List α) (i j : Nat) (a d : α)
    (h : i ≠ j) : (l.set i a).getD j d = l.getD j d := by
  rw [List.getD_eq_getElem?_getD, List.getElem?_set_ne h,
    ← List.getD_eq_getElem?_getD]

/-- Toolkit: peeling one element off a drop. -/
theorem drop_eq_getD_cons {α : Type} (l : List α) (i : Nat) (d : α)
    (h : i < l.length) : l.drop i = l.getD i d :: l.drop (i + 1) := by
  rw [List.drop_eq_getElem_cons h]
  congr 1
  rw [List.getD_eq_getElem?_getD, List.getElem?_eq_getElem h]
  rfl

/-- Toolkit: a pointwise implication between same-length lists does not
decrease a countP. -/
theorem countP_le_of_pointwise (p : ConstantPoolEntry → Bool) :
    ∀ (l l2 : List ConstantPoolEntry), l2.length = l.length →
    (∀ j, j < l.length → p (l.getD j ConstantPoolEntry.Zero) = true →
      p (l2.getD j ConstantPoolEntry.Zero) = true) →
    l.countP p ≤ l2.countP p := by
  intro l
  induction l with
  | nil =>
    intro l2 hlen hp
    simp
  | cons a l ih =>
    intro l2 hlen hp
    cases l2 with
    | nil => simp at hlen
    | cons b l2 =>
      simp only [List.length_cons, Nat.succ.injEq] at hlen
      have htail : l.countP p ≤ l2.countP p := by
        refine ih l2 hlen ?_
        intro j hj hpj
        have := hp (j + 1) (by simpa using Nat.succ_lt_succ hj)
        simpa [List.getD_cons_succ] using this hpj
      have hhead : p a = true → p b = true := by
        intro hpa
        have := hp 0 (by simp)
        simpa [List.getD_cons_zero] using this hpa
      by_cases hpa : p a = true
      · simp only [List.countP_cons, hpa, hhead hpa, if_true]
        omega
      · simp only [List.countP_cons, hpa, if_false]
        by_cases hpb : p b = true <;>
          simp [hpb, Bool.false_eq_true] <;> omega

/-- Toolkit: a pointwise implication plus one strictly improved position
strictly increases a countP. -/
theorem countP_lt_of_pointwise (p : ConstantPoolEntry → Bool) :
    ∀ (l l2 : List ConstantPoolEntry) (j0 : Nat), l2.length = l.length →
    (∀ j, j < l.length → p (l.getD j ConstantPoolEntry.Zero) = true →
      p (l2.getD j ConstantPoolEntry.Zero) = true) →
    j0 < l.length →
    p (l.getD j0 ConstantPoolEntry.Zero) = false →
    p (l2.getD j0 ConstantPoolEntry.Zero) = true →
    l.countP p < l2.countP p := by
  intro l
  induction l with
  | nil =>
    intro l2 j0 hlen hp hj0 hf ht
    simp at hj0
  | cons a l ih =>
    intro l2 j0 hlen hp hj0 hf ht
    cases l2 with
    | nil => simp at hlen
    | cons b l2 =>
      simp only [List.length_cons, Nat.succ.injEq] at hlen
      have hmono : ∀ j, j < l.length → p (l.getD j ConstantPoolEntry.Zero) = true →
          p (l2.getD j ConstantPoolEntry.Zero) = true := by
        intro j hj hpj
        have := hp (j + 1) (by simpa using Nat.succ_lt_succ hj)
        simpa [List.getD_cons_succ] using this hpj
      cases j0 with
      | zero =>
        simp only [List.getD_cons_zero] at hf ht
        have htail : l.countP p ≤ l2.countP p := countP_le_of_pointwise p l l2 hlen hmono
        simp [List.countP_cons, hf, ht]
        omega
      | succ j0 =>
        simp only [List.getD_cons_succ] at hf ht
        have htail : l.countP p < l2.countP p :=
          ih l2 j0 hlen hmono (by simpa using hj0) hf ht
        have hhead : p a = true → p b = true := by
          intro hpa
          have := hp 0 (by simp)
          simpa [List.getD_cons_zero] using this hpa
        by_cases hpa : p a = true
        · simp only [List.countP_cons, hpa, hhead hpa, if_true]
          omega
        · simp only [List.countP_cons, hpa, if_false]
          by_cases hpb : p b = true <;>
            simp [hpb, Bool.false_eq_true] <;> omega

/-- Toolkit: positionwise resolvedness of every index below the length is the
same as resolvedness of every member. -/
theorem all_resolved_iff (l : List ConstantPoolEntry) :
    (∀ j, j < l.length →
      (l.getD j ConstantPoolEntry.Zero).is_resolved = true) ↔
    ∀ e ∈ l, e.is_resolved = true := by
  constructor
  · intro h e he
    obtain ⟨n, hn, rfl⟩ := List.mem_iff_getElem.mp he
    have := h n hn
    rwa [List.getD_eq_getElem?_getD, List.getElem?_eq_getElem hn] at this
  · intro h j hj
    rw [List.getD_eq_getElem?_getD, List.getElem?_eq_getElem hj]
    exact h _ (List.getElem_mem hj)

/-- A resolved reference cell is a fixed point of resolve. -/
theorem ref_resolve_fix (r : ConstantPoolRef) (i : Nat)
    (pool : List ConstantPoolEntry) (h : r.is_resolved = true) :
    r.resolve i pool = Except.ok (r, true) := by
  cases r with
  | Unresolved ix => simp [ConstantPoolRef.is_resolved] at h
  | Resolved ix => rfl

/-- The Boolean a reference resolve call reports is the resolvedness of the
returned cell. -/
theorem ref_resolve_report (r r2 : ConstantPoolRef) (i : Nat)
    (pool : List ConstantPoolEntry) (b : Bool)
    (h : r.resolve i pool = Except.ok (r2, b)) : b = r2.is_resolved := by
  cases r with
  | Unresolved ix =>
    simp only [ConstantPoolRef.resolve] at h
    split_ifs at h with h1 h2 h3 <;>
      simp only [Except.ok.injEq, Prod.mk.injEq] at h <;>
      simp [← h.1, ← h.2, ConstantPoolRef.is_resolved]
  | Resolved ix =>
    simp only [ConstantPoolRef.resolve, Except.ok.injEq, Prod.mk.injEq] at h
    simp [← h.1, ← h.2, ConstantPoolRef.is_resolved]

/-- A reference resolve call never invents new unresolved targets. -/
theorem ref_resolve_targets (r r2 : ConstantPoolRef) (i : Nat)
    (pool : List ConstantPoolEntry) (b : Bool)
    (h : r.resolve i pool = Except.ok (r2, b)) :
    ∀ t, t ∈ r2.targets → t ∈ r.targets := by
  cases r with
  | Unresolved ix =>
    simp only [ConstantPoolRef.resolve] at h
    split_ifs at h with h1 h2 h3 <;>
      simp only [Except.ok.injEq, Prod.mk.injEq] at h <;>
      simp [← h.1, ConstantPoolRef.targets]
  | Resolved ix =>
    simp only [ConstantPoolRef.resolve, Except.ok.injEq, Prod.mk.injEq] at h
    simp [← h.1, ConstantPoolRef.targets]

/-- A reference whose unresolved target is neither its own entry nor out of
bounds resolves without error. -/
theorem ref_resolve_total (r : ConstantPoolRef) (i : Nat)
    (pool : List ConstantPoolEntry)
    (h : ∀ t ∈ r.targets, t ≠ i ∧ t < pool.length) :
    ∃ r2 b, r.resolve i pool = Except.ok (r2, b) := by
  cases r with
  | Unresolved ix =>
    obtain ⟨hne, hlt⟩ := h ix (by simp [ConstantPoolRef.targets])
    have hnb : ¬ pool.length ≤ ix := by omega
    by_cases hres : (pool.getD ix ConstantPoolEntry.Zero).is_resolved = true
    · exact ⟨ConstantPoolRef.Resolved ix, true, by
        simp only [ConstantPoolRef.resolve, if_neg hne, if_neg hnb, if_pos hres]⟩
    · exact ⟨ConstantPoolRef.Unresolved ix, false, by
        simp only [ConstantPoolRef.resolve, if_neg hne, if_neg hnb, if_neg hres]⟩
  | Resolved ix => exact ⟨ConstantPoolRef.Resolved ix, true, rfl⟩

/-- A reference whose unresolved target (if any) is in bounds, distinct from
its own entry and already resolved resolves to a resolved cell reporting
true. -/
theorem ref_resolve_success (r : ConstantPoolRef) (i : Nat)
    (pool : List ConstantPoolEntry)
    (h : ∀ t ∈ r.targets, t ≠ i ∧ t < pool.length ∧
      (pool.getD t ConstantPoolEntry.Zero).is_resolved = true) :
    ∃ r2, r.resolve i pool = Except.ok (r2, true) := by
  cases r with
  | Unresolved ix =>
    obtain ⟨hne, hlt, hres⟩ := h ix (by simp [ConstantPoolRef.targets])
    have hnb : ¬ pool.length ≤ ix := by omega
    exact ⟨ConstantPoolRef.Resolved ix, by
      simp only [ConstantPoolRef.resolve, if_neg hne, if_neg hnb, if_pos hres]⟩
  | Resolved ix => exact ⟨ConstantPoolRef.Resolved ix, rfl⟩

/-- resolveRef1 reports the resolvedness of the entry it returns. -/
theorem resolveRef1_report (mk : ConstantPoolRef → ConstantPoolEntry)
    (x : ConstantPoolRef) (i : Nat) (pool : List ConstantPoolEntry)
    (e2 : ConstantPoolEntry) (b : Bool)
    (hmk : ∀ a, (mk a).is_resolved = a.is_resolved)
    (h : resolveRef1 mk x i pool = Except.ok (e2, b)) : b = e2.is_resolved := by
  simp only [resolveRef1] at h
  cases hx : x.resolve i pool with
  | error e =>
    simp only [hx] at h
    exact Except.noConfusion h
  | ok p =>
    obtain ⟨x2, b1⟩ := p
    simp only [hx, Except.ok.injEq, Prod.mk.injEq] at h
    obtain ⟨he, hb⟩ := h
    subst he
    subst hb
    rw [hmk]
    exact ref_resolve_report x x2 i pool b1 hx

/-- resolveRefs2 reports the resolvedness of the entry it returns. -/
theorem resolveRefs2_report
    (mk : ConstantPoolRef → ConstantPoolRef → ConstantPoolEntry)
    (x y : ConstantPoolRef) (i : Nat) (pool : List ConstantPoolEntry)
    (e2 : ConstantPoolEntry) (b : Bool)
    (hmk : ∀ a c, (mk a c).is_resolved = (a.is_resolved && c.is_resolved))
    (h : resolveRefs2 mk x y i pool = Except.ok (e2, b)) : b = e2.is_resolved := by
  simp only [resolveRefs2] at h
  cases hx : x.resolve i pool with
  | error e =>
    simp only [hx] at h
    exact Except.noConfusion h
  | ok p =>
    obtain ⟨x2, b1⟩ := p
    simp only [hx] at h
    by_cases hb1 : b1 = true
    · rw [if_pos hb1] at h
      cases hy : y.resolve i pool with
      | error e =>
        simp only [hy] at h
        exact Except.noConfusion h
      | ok q =>
        obtain ⟨y2, b2⟩ := q
        simp only [hy, Except.ok.injEq, Prod.mk.injEq] at h
        obtain ⟨he, hb⟩ := h
        subst he
        subst hb
        have r1 : x2.is_resolved = true := by
          rw [← ref_resolve_report x x2 i pool b1 hx]
          exact hb1
        rw [hmk, r1, Bool.true_and]
        exact ref_resolve_report y y2 i pool b2 hy
    · rw [if_neg hb1] at h
      simp only [Except.ok.injEq, Prod.mk.injEq] at h
      obtain ⟨he, hb⟩ := h
      subst he
      subst hb
      have r1 : x2.is_resolved = false := by
        cases hx2 : x2.is_resolved
        · rfl
        · exact absurd ((ref_resolve_report x x2 i pool b1 hx).trans hx2) hb1
      rw [hmk, r1, Bool.false_and]

/-- resolveRef1 never invents new unresolved targets. -/
theorem resolveRef1_targets (mk : ConstantPoolRef → ConstantPoolEntry)
    (x : ConstantPoolRef) (i : Nat) (pool : List ConstantPoolEntry)
    (e2 : ConstantPoolEntry) (b : Bool)
    (hmk : ∀ a, (mk a).unresolvedTargets = a.targets)
    (h : resolveRef1 mk x i pool = Except.ok (e2, b)) :
    ∀ t, t ∈ e2.unresolvedTargets → t ∈ (mk x).unresolvedTargets := by
  simp only [resolveRef1] at h
  cases hx : x.resolve i pool with
  | error e =>
    simp only [hx] at h
    exact Except.noConfusion h
  | ok p =>
    obtain ⟨x2, b1⟩ := p
    simp only [hx, Except.ok.injEq, Prod.mk.injEq] at h
    obtain ⟨he, hb⟩ := h
    subst he
    intro t ht
    rw [hmk] at ht ⊢
    exact ref_resolve_targets x x2 i pool b1 hx t ht

/-- resolveRefs2 never invents new unresolved targets. -/
theorem resolveRefs2_targets
    (mk : ConstantPoolRef → ConstantPoolRef → ConstantPoolEntry)
    (x y : ConstantPoolRef) (i : Nat) (pool : List ConstantPoolEntry)
    (e2 : ConstantPoolEntry) (b : Bool)
    (hmk : ∀ a c, (mk a c).unresolvedTargets = a.targets ++ c.targets)
    (h : resolveRefs2 mk x y i pool = Except.ok (e2, b)) :
    ∀ t, t ∈ e2.unresolvedTargets → t ∈ (mk x y).unresolvedTargets := by
  simp only [resolveRefs2] at h
  cases hx : x.resolve i pool with
  | error e =>
    simp only [hx] at h
    exact Except.noConfusion h
  | ok p =>
    obtain ⟨x2, b1⟩ := p
    simp only [hx] at h
    by_cases hb1 : b1 = true
    · rw [if_pos hb1] at h
      cases hy : y.resolve i pool with
      | error e =>
        simp only [hy] at h
        exact Except.noConfusion h
      | ok q =>
        obtain ⟨y2, b2⟩ := q
        simp only [hy, Except.ok.injEq, Prod.mk.injEq] at h
        obtain ⟨he, hb⟩ := h
        subst he
        intro t ht
        rw [hmk] at ht ⊢
        rw [List.mem_append] at ht ⊢
        rcases ht with ht | ht
        · exact Or.inl (ref_resolve_targets x x2 i pool b1 hx t ht)
        · exact Or.inr (ref_resolve_targets y y2 i pool b2 hy t ht)
    · rw [if_neg hb1] at h
      simp only [Except.ok.injEq, Prod.mk.injEq] at h
      obtain ⟨he, hb⟩ := h
      subst he
      intro t ht
      rw [hmk] at ht ⊢
      rw [List.mem_append] at ht ⊢
      rcases ht with ht | ht
      · exact Or.inl (ref_resolve_targets x x2 i pool b1 hx t ht)
      · exact Or.inr ht

/-- resolveRef1 cannot error when the reference's target is neither the own
index nor out of bounds. -/
theorem resolveRef1_total (mk : ConstantPoolRef → ConstantPoolEntry)
    (x : ConstantPoolRef) (i : Nat) (pool : List ConstantPoolEntry)
    (h : ∀ t ∈ x.targets, t ≠ i ∧ t < pool.length) :
    ∃ e2 b, resolveRef1 mk x i pool = Except.ok (e2, b) := by
  obtain ⟨r2, b, hx⟩ := ref_resolve_total x i pool h
  exact ⟨mk r2, b, by simp only [resolveRef1, hx]⟩

/-- resolveRefs2 cannot error when both references' targets are neither the
own index nor out of bounds. -/
theorem resolveRefs2_total
    (mk : ConstantPoolRef → ConstantPoolRef → ConstantPoolEntry)
    (x y : ConstantPoolRef) (i : Nat) (pool : List ConstantPoolEntry)
    (hx0 : ∀ t ∈ x.targets, t ≠ i ∧ t < pool.length)
    (hy0 : ∀ t ∈ y.targets, t ≠ i ∧ t < pool.length) :
    ∃ e2 b, resolveRefs2 mk x y i pool = Except.ok (e2, b) := by
  obtain ⟨x2, b1, hx⟩ := ref_resolve_total x i pool hx0
  cases b1 with
  | true =>
    obtain ⟨y2, b2, hy⟩ := ref_resolve_total y i pool hy0
    exact ⟨mk x2 y2, b2, by simp [resolveRefs2, hx, hy]⟩
  | false =>
    exact ⟨mk x2 y, false, by simp [resolveRefs2, hx]⟩

/-- resolveRef1 resolves completely when the reference's target is distinct
from the own index, in bounds and already resolved. -/
theorem resolveRef1_success (mk : ConstantPoolRef → ConstantPoolEntry)
    (x : ConstantPoolRef) (i : Nat) (pool : List ConstantPoolEntry)
    (h : ∀ t ∈ x.targets, t ≠ i ∧ t < pool.length ∧
      (pool.getD t ConstantPoolEntry.Zero).is_resolved = true) :
    ∃ e2, resolveRef1 mk x i pool = Except.ok (e2, true) := by
  obtain ⟨r2, hx⟩ := ref_resolve_success x i pool h
  exact ⟨mk r2, by simp only [resolveRef1, hx]⟩

/-- resolveRefs2 resolves completely when both references' targets are
distinct from the own index, in bounds and already resolved. -/
theorem resolveRefs2_success
    (mk : ConstantPoolRef → ConstantPoolRef → ConstantPoolEntry)
    (x y : ConstantPoolRef) (i : Nat) (pool : List ConstantPoolEntry)
    (hx0 : ∀ t ∈ x.targets, t ≠ i ∧ t < pool.length ∧
      (pool.getD t ConstantPoolEntry.Zero).is_resolved = true)
    (hy0 : ∀ t ∈ y.targets, t ≠ i ∧ t < pool.length ∧
      (pool.getD t ConstantPoolEntry.Zero).is_resolved = true) :
    ∃ e2, resolveRefs2 mk x y i pool = Except.ok (e2, true) := by
  obtain ⟨x2, hx⟩ := ref_resolve_success x i pool hx0
  obtain ⟨y2, hy⟩ := ref_resolve_success y i pool hy0
  exact ⟨mk x2 y2, by simp [resolveRefs2, hx, hy]⟩

/-- A fully resolved entry is a fixed point of its resolve visit. -/
theorem entry_resolve_fix (e : ConstantPoolEntry) (i : Nat)
    (pool : List ConstantPoolEntry) (h : e.is_resolved = true) :
    e.resolve i pool = Except.ok (e, true) := by
  cases e with
  | ClassInfo x =>
    have hx : x.is_resolved = true := by
      simpa [ConstantPoolEntry.is_resolved] using h
    simp [ConstantPoolEntry.resolve, resolveRef1, ref_resolve_fix x i pool hx]
  | String x =>
    have hx : x.is_resolved = true := by
      simpa [ConstantPoolEntry.is_resolved] using h
    simp [ConstantPoolEntry.resolve, resolveRef1, ref_resolve_fix x i pool hx]
  | MethodType x =>
    have hx : x.is_resolved = true := by
      simpa [ConstantPoolEntry.is_resolved] using h
    simp [ConstantPoolEntry.resolve, resolveRef1, ref_resolve_fix x i pool hx]
  | MethodHandle k y =>
    have hy : y.is_resolved = true := by
      simpa [ConstantPoolEntry.is_resolved] using h
    simp [ConstantPoolEntry.resolve, resolveRef1, ref_resolve_fix y i pool hy]
  | InvokeDynamic bm y =>
    have hy : y.is_resolved = true := by
      simpa [ConstantPoolEntry.is_resolved] using h
    simp [ConstantPoolEntry.resolve, resolveRef1, ref_resolve_fix y i pool hy]
  | FieldRef x y =>
    obtain ⟨hx, hy⟩ : x.is_resolved = true ∧ y.is_resolved = true := by
      simpa [ConstantPoolEntry.is_resolved, Bool.and_eq_true] using h
    simp [ConstantPoolEntry.resolve, resolveRefs2, ref_resolve_fix x i pool hx,
      ref_resolve_fix y i pool hy]
  | MethodRef x y =>
    obtain ⟨hx, hy⟩ : x.is_resolved = true ∧ y.is_resolved = true := by
      simpa [ConstantPoolEntry.is_resolved, Bool.and_eq_true] using h
    simp [ConstantPoolEntry.resolve, resolveRefs2, ref_resolve_fix x i pool hx,
      ref_resolve_fix y i pool hy]
  | InterfaceMethodRef x y =>
    obtain ⟨hx, hy⟩ : x.is_resolved = true ∧ y.is_resolved = true := by
      simpa [ConstantPoolEntry.is_resolved, Bool.and_eq_true] using h
    simp [ConstantPoolEntry.resolve, resolveRefs2, ref_resolve_fix x i pool hx,
      ref_resolve_fix y i pool hy]
  | NameAndType x y =>
    obtain ⟨hx, hy⟩ : x.is_resolved = true ∧ y.is_resolved = true := by
      simpa [ConstantPoolEntry.is_resolved, Bool.and_eq_true] using h
    simp [ConstantPoolEntry.resolve, resolveRefs2, ref_resolve_fix x i pool hx,
      ref_resolve_fix y i pool hy]
  | _ => rfl

/-- The Boolean an entry visit reports is the resolvedness of the returned
entry. -/
theorem entry_resolve_report (e e2 : ConstantPoolEntry) (i : Nat)
    (pool : List ConstantPoolEntry) (b : Bool)
    (h : e.resolve i pool = Except.ok (e2, b)) : b = e2.is_resolved := by
  cases e with
  | ClassInfo x =>
    exact resolveRef1_report ConstantPoolEntry.ClassInfo x i pool e2 b (fun a => rfl)
      (by simpa only [ConstantPoolEntry.resolve] using h)
  | String x =>
    exact resolveRef1_report ConstantPoolEntry.String x i pool e2 b (fun a => rfl)
      (by simpa only [ConstantPoolEntry.resolve] using h)
  | MethodType x =>
    exact resolveRef1_report ConstantPoolEntry.MethodType x i pool e2 b (fun a => rfl)
      (by simpa only [ConstantPoolEntry.resolve] using h)
  | MethodHandle k y =>
    exact resolveRef1_report (ConstantPoolEntry.MethodHandle k) y i pool e2 b (fun a => rfl)
      (by simpa only [ConstantPoolEntry.resolve] using h)
  | InvokeDynamic bm y =>
    exact resolveRef1_report (ConstantPoolEntry.InvokeDynamic bm) y i pool e2 b (fun a => rfl)
      (by simpa only [ConstantPoolEntry.resolve] using h)
  | FieldRef x y =>
    exact resolveRefs2_report ConstantPoolEntry.FieldRef x y i pool e2 b (fun a c => rfl)
      (by simpa only [ConstantPoolEntry.resolve] using h)
  | MethodRef x y =>
    exact resolveRefs2_report ConstantPoolEntry.MethodRef x y i pool e2 b (fun a c => rfl)
      (by simpa only [ConstantPoolEntry.resolve] using h)
  | InterfaceMethodRef x y =>
    exact resolveRefs2_report ConstantPoolEntry.InterfaceMethodRef x y i pool e2 b (fun a c => rfl)
      (by simpa only [ConstantPoolEntry.resolve] using h)
  | NameAndType x y =>
    exact resolveRefs2_report ConstantPoolEntry.NameAndType x y i pool e2 b (fun a c => rfl)
      (by simpa only [ConstantPoolEntry.resolve] using h)
  | _ =>
    simp only [ConstantPoolEntry.resolve, Except.ok.injEq, Prod.mk.injEq] at h
    obtain ⟨he, hb⟩ := h
    subst he
    subst hb
    rfl

/-- A resolved entry stays itself (reporting true) under a resolve visit. -/
theorem entry_resolve_mono (e e2 : ConstantPoolEntry) (i : Nat)
    (pool : List ConstantPoolEntry) (b : Bool)
    (h : e.resolve i pool = Except.ok (e2, b)) (hres : e.is_resolved = true) :
    e2 = e ∧ b = true := by
  rw [entry_resolve_fix e i pool hres] at h
  simp only [Except.ok.injEq, Prod.mk.injEq] at h
  exact ⟨h.1.symm, h.2.symm⟩

/-- An entry visit never invents new unresolved targets. -/
theorem entry_resolve_targets (e e2 : ConstantPoolEntry) (i : Nat)
    (pool : List ConstantPoolEntry) (b : Bool)
    (h : e.resolve i pool = Except.ok (e2, b)) :
    ∀ t, t ∈ e2.unresolvedTargets → t ∈ e.unresolvedTargets := by
  cases e with
  | ClassInfo x =>
    exact resolveRef1_targets ConstantPoolEntry.ClassInfo x i pool e2 b (fun a => rfl)
      (by simpa only [ConstantPoolEntry.resolve] using h)
  | String x =>
    exact resolveRef1_targets ConstantPoolEntry.String x i pool e2 b (fun a => rfl)
      (by simpa only [ConstantPoolEntry.resolve] using h)
  | MethodType x =>
    exact resolveRef1_targets ConstantPoolEntry.MethodType x i pool e2 b (fun a => rfl)
      (by simpa only [ConstantPoolEntry.resolve] using h)
  | MethodHandle k y =>
    exact resolveRef1_targets (ConstantPoolEntry.MethodHandle k) y i pool e2 b (fun a => rfl)
      (by simpa only [ConstantPoolEntry.resolve] using h)
  | InvokeDynamic bm y =>
    exact resolveRef1_targets (ConstantPoolEntry.InvokeDynamic bm) y i pool e2 b (fun a => rfl)
      (by simpa only [ConstantPoolEntry.resolve] using h)
  | FieldRef x y =>
    exact resolveRefs2_targets ConstantPoolEntry.FieldRef x y i pool e2 b (fun a c => rfl)
      (by simpa only [ConstantPoolEntry.resolve] using h)
  | MethodRef x y =>
    exact resolveRefs2_targets ConstantPoolEntry.MethodRef x y i pool e2 b (fun a c => rfl)
      (by simpa only [ConstantPoolEntry.resolve] using h)
  | InterfaceMethodRef x y =>
    exact resolveRefs2_targets ConstantPoolEntry.InterfaceMethodRef x y i pool e2 b (fun a c => rfl)
      (by simpa only [ConstantPoolEntry.resolve] using h)
  | NameAndType x y =>
    exact resolveRefs2_targets ConstantPoolEntry.NameAndType x y i pool e2 b (fun a c => rfl)
      (by simpa only [ConstantPoolEntry.resolve] using h)
  | _ =>
    simp only [ConstantPoolEntry.resolve, Except.ok.injEq, Prod.mk.injEq] at h
    obtain ⟨he, hb⟩ := h
    subst he
    exact fun t ht => ht

/-- An entry visit cannot error when every unresolved target is neither the
own index nor out of bounds. -/
theorem entry_resolve_total (e : ConstantPoolEntry) (i : Nat)
    (pool : List ConstantPoolEntry)
    (h : ∀ t ∈ e.unresolvedTargets, t ≠ i ∧ t < pool.length) :
    ∃ e2 b, e.resolve i pool = Except.ok (e2, b) := by
  cases e with
  | ClassInfo x =>
    exact resolveRef1_total _ x i pool
      (fun t ht => h t (by simpa [ConstantPoolEntry.unresolvedTargets] using ht))
  | String x =>
    exact resolveRef1_total _ x i pool
      (fun t ht => h t (by simpa [ConstantPoolEntry.unresolvedTargets] using ht))
  | MethodType x =>
    exact resolveRef1_total _ x i pool
      (fun t ht => h t (by simpa [ConstantPoolEntry.unresolvedTargets] using ht))
  | MethodHandle k y =>
    exact resolveRef1_total _ y i pool
      (fun t ht => h t (by simpa [ConstantPoolEntry.unresolvedTargets] using ht))
  | InvokeDynamic bm y =>
    exact resolveRef1_total _ y i pool
      (fun t ht => h t (by simpa [ConstantPoolEntry.unresolvedTargets] using ht))
  | FieldRef x y =>
    exact resolveRefs2_total _ x y i pool
      (fun t ht => h t (by
        simp [ConstantPoolEntry.unresolvedTargets, List.mem_append, ht]))
      (fun t ht => h t (by
        simp [ConstantPoolEntry.unresolvedTargets, List.mem_append, ht]))
  | MethodRef x y =>
    exact resolveRefs2_total _ x y i pool
      (fun t ht => h t (by
        simp [ConstantPoolEntry.unresolvedTargets, List.mem_append, ht]))
      (fun t ht => h t (by
        simp [ConstantPoolEntry.unresolvedTargets, List.mem_append, ht]))
  | InterfaceMethodRef x y =>
    exact resolveRefs2_total _ x y i pool
      (fun t ht => h t (by
        simp [ConstantPoolEntry.unresolvedTargets, List.mem_append, ht]))
      (fun t ht => h t (by
        simp [ConstantPoolEntry.unresolvedTargets, List.mem_append, ht]))
  | NameAndType x y =>
    exact resolveRefs2_total _ x y i pool
      (fun t ht => h t (by
        simp [ConstantPoolEntry.unresolvedTargets, List.mem_append, ht]))
      (fun t ht => h t (by
        simp [ConstantPoolEntry.unresolvedTargets, List.mem_append, ht]))
  | _ => exact ⟨_, _, rfl⟩

/-- An entry visit resolves the entry completely (reporting true) when every
unresolved target is distinct from the own index, in bounds and already
resolved. -/
theorem entry_resolve_success (e : ConstantPoolEntry) (i : Nat)
    (pool : List ConstantPoolEntry)
    (h : ∀ t ∈ e.unresolvedTargets, t ≠ i ∧ t < pool.length ∧
      (pool.getD t ConstantPoolEntry.Zero).is_resolved = true) :
    ∃ e2, e.resolve i pool = Except.ok (e2, true) := by
  cases e with
  | ClassInfo x =>
    exact resolveRef1_success _ x i pool
      (fun t ht => h t (by simpa [ConstantPoolEntry.unresolvedTargets] using ht))
  | String x =>
    exact resolveRef1_success _ x i pool
      (fun t ht => h t (by simpa [ConstantPoolEntry.unresolvedTargets] using ht))
  | MethodType x =>
    exact resolveRef1_success _ x i pool
      (fun t ht => h t (by simpa [ConstantPoolEntry.unresolvedTargets] using ht))
  | MethodHandle k y =>
    exact resolveRef1_success _ y i pool
      (fun t ht => h t (by simpa [ConstantPoolEntry.unresolvedTargets] using ht))
  | InvokeDynamic bm y =>
    exact resolveRef1_success _ y i pool
      (fun t ht => h t (by simpa [ConstantPoolEntry.unresolvedTargets] using ht))
  | FieldRef x y =>
    exact resolveRefs2_success _ x y i pool
      (fun t ht => h t (by
        simp [ConstantPoolEntry.unresolvedTargets, List.mem_append, ht]))
      (fun t ht => h t (by
        simp [ConstantPoolEntry.unresolvedTargets, List.mem_append, ht]))
  | MethodRef x y =>
    exact resolveRefs2_success _ x y i pool
      (fun t ht => h t (by
        simp [ConstantPoolEntry.unresolvedTargets, List.mem_append, ht]))
      (fun t ht => h t (by
        simp [ConstantPoolEntry.unresolvedTargets, List.mem_append, ht]))
  | InterfaceMethodRef x y =>
    exact resolveRefs2_success _ x y i pool
      (fun t ht => h t (by
        simp [ConstantPoolEntry.unresolvedTargets, List.mem_append, ht]))
      (fun t ht => h t (by
        simp [ConstantPoolEntry.unresolvedTargets, List.mem_append, ht]))
  | NameAndType x y =>
    exact resolveRefs2_success _ x y i pool
      (fun t ht => h t (by
        simp [ConstantPoolEntry.unresolvedTargets, List.mem_append, ht]))
      (fun t ht => h t (by
        simp [ConstantPoolEntry.unresolvedTargets, List.mem_append, ht]))
  | _ => exact ⟨_, rfl⟩

/-- The scan preserves the pool length. -/
theorem passAux_len :
    ∀ (k : Nat) (pool : List ConstantPoolEntry) (i c : Nat)
      (p2 : List ConstantPoolEntry) (c2 : Nat),
      resolvePassAux k pool i c = Except.ok (p2, c2) → p2.length = pool.length := by
  intro k
  induction k with
  | zero =>
    intro pool i c p2 c2 h
    simp only [resolvePassAux, Except.ok.injEq, Prod.mk.injEq] at h
    rw [← h.1]
  | succ k ih =>
    intro pool i c p2 c2 h
    simp only [resolvePassAux] at h
    cases he : (pool.getD i ConstantPoolEntry.Zero).resolve i pool with
    | error e =>
      simp only [he] at h
      exact Except.noConfusion h
    | ok q =>
      obtain ⟨e2, b⟩ := q
      simp only [he] at h
      have hlen := ih (pool.set i e2) (i + 1) (if b then c + 1 else c) p2 c2 h
      rw [hlen, List.length_set]

/-- The scan does not touch entries before its start index. -/
theorem passAux_before :
    ∀ (k : Nat) (pool : List ConstantPoolEntry) (i c : Nat)
      (p2 : List ConstantPoolEntry) (c2 : Nat),
      resolvePassAux k pool i c = Except.ok (p2, c2) →
      ∀ j, j < i →
        p2.getD j ConstantPoolEntry.Zero = pool.getD j ConstantPoolEntry.Zero := by
  intro k
  induction k with
  | zero =>
    intro pool i c p2 c2 h j hj
    simp only [resolvePassAux, Except.ok.injEq, Prod.mk.injEq] at h
    rw [← h.1]
  | succ k ih =>
    intro pool i c p2 c2 h j hj
    simp only [resolvePassAux] at h
    cases he : (pool.getD i ConstantPoolEntry.Zero).resolve i pool with
    | error e =>
      simp only [he] at h
      exact Except.noConfusion h
    | ok q =>
      obtain ⟨e2, b⟩ := q
      simp only [he] at h
      have hb := ih (pool.set i e2) (i + 1) (if b then c + 1 else c) p2 c2 h j
        (by omega)
      rw [hb, getD_set_ne pool i j e2 ConstantPoolEntry.Zero (by omega)]

/-- The scan never unresolves an entry. -/
theorem passAux_mono :
    ∀ (k : Nat) (pool : List ConstantPoolEntry) (i c : Nat)
      (p2 : List ConstantPoolEntry) (c2 : Nat),
      resolvePassAux k pool i c = Except.ok (p2, c2) →
      ∀ j, (pool.getD j ConstantPoolEntry.Zero).is_resolved = true →
        (p2.getD j ConstantPoolEntry.Zero).is_resolved = true := by
  intro k
  induction k with
  | zero =>
    intro pool i c p2 c2 h j hj
    simp only [resolvePassAux, Except.ok.injEq, Prod.mk.injEq] at h
    rw [← h.1]
    exact hj
  | succ k ih =>
    intro pool i c p2 c2 h j hj
    simp only [resolvePassAux] at h
    cases he : (pool.getD i ConstantPoolEntry.Zero).resolve i pool with
    | error e =>
      simp only [he] at h
      exact Except.noConfusion h
    | ok q =>
      obtain ⟨e2, b⟩ := q
      simp only [he] at h
      refine ih (pool.set i e2) (i + 1) (if b then c + 1 else c) p2 c2 h j ?_
      by_cases hij : i = j
      · subst hij
        by_cases hil : i < pool.length
        · rw [getD_set_self pool i e2 ConstantPoolEntry.Zero hil]
          obtain ⟨heq, -⟩ := entry_resolve_mono _ e2 i pool b he hj
          rw [heq]
          exact hj
        · rw [List.set_eq_of_length_le (by omega)]
          exact hj
      · rw [getD_set_ne pool i j e2 ConstantPoolEntry.Zero hij]
        exact hj

/-- The scan never invents new unresolved targets at any index. -/
theorem passAux_targets :
    ∀ (k : Nat) (pool : List ConstantPoolEntry) (i c : Nat)
      (p2 : List ConstantPoolEntry) (c2 : Nat),
      resolvePassAux k pool i c = Except.ok (p2, c2) →
      ∀ j t, t ∈ (p2.getD j ConstantPoolEntry.Zero).unresolvedTargets →
        t ∈ (pool.getD j ConstantPoolEntry.Zero).unresolvedTargets := by
  intro k
  induction k with
  | zero =>
    intro pool i c p2 c2 h j t ht
    simp only [resolvePassAux, Except.ok.injEq, Prod.mk.injEq] at h
    rw [h.1]
    exact ht
  | succ k ih =>
    intro pool i c p2 c2 h j t ht
    simp only [resolvePassAux] at h
    cases he : (pool.getD i ConstantPoolEntry.Zero).resolve i pool with
    | error e =>
      simp only [he] at h
      exact Except.noConfusion h
    | ok q =>
      obtain ⟨e2, b⟩ := q
      simp only [he] at h
      have hstep := ih (pool.set i e2) (i + 1) (if b then c + 1 else c) p2 c2 h j t ht
      by_cases hij : i = j
      · subst hij
        by_cases hil : i < pool.length
        · rw [getD_set_self pool i e2 ConstantPoolEntry.Zero hil] at hstep
          exact entry_resolve_targets _ e2 i pool b he t hstep
        · rwa [List.set_eq_of_length_le (by omega)] at hstep
      · rwa [getD_set_ne pool i j e2 ConstantPoolEntry.Zero hij] at hstep

/-- The count a scan returns is its starting count plus the number of
resolved entries at or after its start index in the resulting pool. -/
theorem passAux_count :
    ∀ (k : Nat) (pool : List ConstantPoolEntry) (i c : Nat)
      (p2 : List ConstantPoolEntry) (c2 : Nat),
      k + i = pool.length →
      resolvePassAux k pool i c = Except.ok (p2, c2) →
      c2 = c + ((p2.drop i).countP (fun e => e.is_resolved)) := by
  intro k
  induction k with
  | zero =>
    intro pool i c p2 c2 hk h
    simp only [resolvePassAux, Except.ok.injEq, Prod.mk.injEq] at h
    obtain ⟨hp, hc⟩ := h
    subst hp
    have hi : i = pool.length := by omega
    rw [← hc, hi, List.drop_length]
    simp
  | succ k ih =>
    intro pool i c p2 c2 hk h
    simp only [resolvePassAux] at h
    cases he : (pool.getD i ConstantPoolEntry.Zero).resolve i pool with
    | error e =>
      simp only [he] at h
      exact Except.noConfusion h
    | ok q =>
      obtain ⟨e2, b⟩ := q
      simp only [he] at h
      have hrec := ih (pool.set i e2) (i + 1) (if b then c + 1 else c) p2 c2
        (by rw [List.length_set]; omega) h
      have hlen2 : p2.length = pool.length := by
        rw [passAux_len k (pool.set i e2) (i + 1) (if b then c + 1 else c) p2 c2 h,
          List.length_set]
      have hip2 : i < p2.length := by omega
      have hgd : p2.getD i ConstantPoolEntry.Zero = e2 := by
        rw [passAux_before k (pool.set i e2) (i + 1) (if b then c + 1 else c)
          p2 c2 h i (by omega)]
        exact getD_set_self pool i e2 ConstantPoolEntry.Zero (by omega)
      have hdrop := drop_eq_getD_cons p2 i ConstantPoolEntry.Zero hip2
      have hrep : b = e2.is_resolved := entry_resolve_report _ e2 i pool b he
      subst hrep
      rw [hdrop, List.countP_cons, hgd]
      cases hb : e2.is_resolved with
      | true =>
        simp only [hb, if_true] at hrec
        simp [hb]
        omega
      | false =>
        simp only [hb, Bool.false_eq_true, if_false] at hrec
        simp [hb]
        omega

/-- The scan cannot error when every unresolved target in the pool avoids its
own entry's index and stays in bounds. -/
theorem passAux_total :
    ∀ (k : Nat) (pool : List ConstantPoolEntry) (i c : Nat),
      (∀ j t, j < pool.length →
        t ∈ (pool.getD j ConstantPoolEntry.Zero).unresolvedTargets →
        t ≠ j ∧ t < pool.length) →
      k + i = pool.length →
      ∃ p2 c2, resolvePassAux k pool i c = Except.ok (p2, c2) := by
  intro k
  induction k with
  | zero =>
    intro pool i c hwf hk
    exact ⟨pool, c, rfl⟩
  | succ k ih =>
    intro pool i c hwf hk
    have hil : i < pool.length := by omega
    obtain ⟨e2, b, he⟩ := entry_resolve_total (pool.getD i ConstantPoolEntry.Zero)
      i pool (fun t ht => hwf i t hil ht)
    have hwf2 : ∀ j t, j < (pool.set i e2).length →
        t ∈ ((pool.set i e2).getD j ConstantPoolEntry.Zero).unresolvedTargets →
        t ≠ j ∧ t < (pool.set i e2).length := by
      intro j t hj ht
      rw [List.length_set] at hj ⊢
      by_cases hij : i = j
      · subst hij
        rw [getD_set_self pool i e2 ConstantPoolEntry.Zero hil] at ht
        exact hwf i t hil (entry_resolve_targets _ e2 i pool b he t ht)
      · rw [getD_set_ne pool i j e2 ConstantPoolEntry.Zero hij] at ht
        exact hwf j t hj ht
    obtain ⟨p2, c2, hrec⟩ := ih (pool.set i e2) (i + 1) (if b then c + 1 else c)
      hwf2 (by rw [List.length_set]; omega)
    exact ⟨p2, c2, by simp only [resolvePassAux, he]; exact hrec⟩

/-- If some entry is unresolved but all its unresolved targets avoid its own
index, stay in bounds and are already resolved, then the scan (reaching it)
leaves it resolved. -/
theorem passAux_progress :
    ∀ (k : Nat) (pool : List ConstantPoolEntry) (i c j0 : Nat)
      (p2 : List ConstantPoolEntry) (c2 : Nat),
      j0 < pool.length →
      (∀ t ∈ (pool.getD j0 ConstantPoolEntry.Zero).unresolvedTargets,
        t ≠ j0 ∧ t < pool.length ∧
        (pool.getD t ConstantPoolEntry.Zero).is_resolved = true) →
      k + i = pool.length → i ≤ j0 →
      resolvePassAux k pool i c = Except.ok (p2, c2) →
      (p2.getD j0 ConstantPoolEntry.Zero).is_resolved = true := by
  intro k
  induction k with
  | zero =>
    intro pool i c j0 p2 c2 hj0 htgt hk hij0 h
    exfalso
    omega
  | succ k ih =>
    intro pool i c j0 p2 c2 hj0 htgt hk hij0 h
    have hil : i < pool.length := by omega
    simp only [resolvePassAux] at h
    cases he : (pool.getD i ConstantPoolEntry.Zero).resolve i pool with
    | error e =>
      simp only [he] at h
      exact Except.noConfusion h
    | ok q =>
      obtain ⟨e2, b⟩ := q
      simp only [he] at h
      by_cases hij : i = j0
      · subst hij
        obtain ⟨e3, hsucc⟩ := entry_resolve_success
          (pool.getD i ConstantPoolEntry.Zero) i pool htgt
        rw [hsucc] at he
        simp only [Except.ok.injEq, Prod.mk.injEq] at he
        obtain ⟨he3, hb⟩ := he
        have hres3 : e3.is_resolved = true :=
          (entry_resolve_report _ e3 i pool true hsucc).symm
        refine passAux_mono k (pool.set i e2) (i + 1) (if b then c + 1 else c)
          p2 c2 h i ?_
        rw [getD_set_self pool i e2 ConstantPoolEntry.Zero hil, ← he3]
        exact hres3
      · have hlt : i < j0 := by omega
        refine ih (pool.set i e2) (i + 1) (if b then c + 1 else c) j0 p2 c2
          ?_ ?_ ?_ ?_ h
        · rw [List.length_set]
          exact hj0
        · rw [getD_set_ne pool i j0 e2 ConstantPoolEntry.Zero (by omega)]
          intro t ht
          obtain ⟨h1, h2, h3⟩ := htgt t ht
          refine ⟨h1, by rw [List.length_set]; exact h2, ?_⟩
          by_cases hti : i = t
          · subst hti
            rw [getD_set_self pool i e2 ConstantPoolEntry.Zero hil]
            obtain ⟨heq, -⟩ := entry_resolve_mono _ e2 i pool b he h3
            rw [heq]
            exact h3
          · rw [getD_set_ne pool i t e2 ConstantPoolEntry.Zero hti]
            exact h3
        · rw [List.length_set]
          omega
        · omega

/-- Summary of one successful full scan: the length is preserved, the
returned count is exactly the number of resolved entries afterwards, no
entry is unresolved by it and no new unresolved targets appear. -/
theorem resolvePass_spec (pool p2 : List ConstantPoolEntry) (c2 : Nat)
    (h : resolvePass pool = Except.ok (p2, c2)) :
    p2.length = pool.length ∧ c2 = numResolved p2 ∧
    (∀ j, (pool.getD j ConstantPoolEntry.Zero).is_resolved = true →
      (p2.getD j ConstantPoolEntry.Zero).is_resolved = true) ∧
    (∀ j t, t ∈ (p2.getD j ConstantPoolEntry.Zero).unresolvedTargets →
      t ∈ (pool.getD j ConstantPoolEntry.Zero).unresolvedTargets) := by
  have h2 : resolvePassAux pool.length pool 0 0 = Except.ok (p2, c2) := h
  refine ⟨passAux_len pool.length pool 0 0 p2 c2 h2, ?_,
    passAux_mono pool.length pool 0 0 p2 c2 h2,
    passAux_targets pool.length pool 0 0 p2 c2 h2⟩
  have hc := passAux_count pool.length pool 0 0 p2 c2 (by omega) h2
  simpa [numResolved] using hc

/-- Among the unresolved entries (when one exists) there is one of minimal
rank. -/
theorem exists_min_rank_unresolved (pool : List ConstantPoolEntry)
    (rank : Nat → Nat) (j : Nat) (hj : j < pool.length)
    (hjf : (pool.getD j ConstantPoolEntry.Zero).is_resolved = false) :
    ∃ j0, j0 < pool.length ∧
      (pool.getD j0 ConstantPoolEntry.Zero).is_resolved = false ∧
      ∀ j2, j2 < pool.length →
        (pool.getD j2 ConstantPoolEntry.Zero).is_resolved = false →
        rank j0 ≤ rank j2 := by
  have hne : ((Finset.range pool.length).filter
      (fun j2 => (pool.getD j2 ConstantPoolEntry.Zero).is_resolved = false)).Nonempty :=
    ⟨j, Finset.mem_filter.mpr ⟨Finset.mem_range.mpr hj, hjf⟩⟩
  obtain ⟨j0, hj0s, hmin⟩ := Finset.exists_min_image _ rank hne
  rw [Finset.mem_filter, Finset.mem_range] at hj0s
  exact ⟨j0, hj0s.1, hj0s.2, fun j2 h1 h2 =>
    hmin j2 (Finset.mem_filter.mpr ⟨Finset.mem_range.mpr h1, h2⟩)⟩

/-- The resolution loop always answers within a pass budget exceeding the
number of not-yet-resolved entries: each executed pass either errors, stalls
(returning the stall error) or strictly increases the resolved count. -/
theorem resolveLoop_some :
    ∀ (fuel : Nat) (pool : List ConstantPoolEntry) (rc : Nat),
      rc ≤ numResolved pool → pool.length < fuel + rc →
      ∃ r, resolveLoopFuel fuel pool rc = some r := by
  intro fuel
  induction fuel with
  | zero =>
    intro pool rc h1 h2
    exfalso
    have h3 : numResolved pool ≤ pool.length := List.countP_le_length _
    omega
  | succ fuel ih =>
    intro pool rc h1 h2
    by_cases hrc : rc < pool.length
    · cases hp : resolvePass pool with
      | error e =>
        exact ⟨Except.error e, by simp only [resolveLoopFuel, if_pos hrc, hp]⟩
      | ok q =>
        obtain ⟨p2, c⟩ := q
        by_cases hstall : c = rc
        · exact ⟨err "Unable to resolve all constant pool entries",
            by simp only [resolveLoopFuel, if_pos hrc, hp, if_pos hstall]⟩
        · obtain ⟨hlen, hcount, hmono, -⟩ := resolvePass_spec pool p2 c hp
          have hge : numResolved pool ≤ numResolved p2 :=
            countP_le_of_pointwise _ pool p2 hlen (fun j hj hh => hmono j hh)
          have hle2 : numResolved p2 ≤ p2.length := List.countP_le_length _
          obtain ⟨r, hr⟩ := ih p2 c (le_of_eq hcount) (by omega)
          refine ⟨r, ?_⟩
          simp only [resolveLoopFuel, if_pos hrc, hp, if_neg hstall]
          exact hr
    · exact ⟨Except.ok pool, by simp only [resolveLoopFuel, if_neg hrc]⟩

/-- Under an acyclic (rank-decreasing), in-bounds reference graph the
resolution loop succeeds and leaves every entry resolved. -/
theorem resolveLoop_acyclic :
    ∀ (fuel : Nat) (pool : List ConstantPoolEntry) (rc : Nat) (rank : Nat → Nat),
      (∀ j, j < pool.length →
        ∀ t ∈ (pool.getD j ConstantPoolEntry.Zero).unresolvedTargets,
          t < pool.length ∧ rank t < rank j) →
      rc ≤ numResolved pool → pool.length < fuel + rc →
      ∃ p2, resolveLoopFuel fuel pool rc = some (Except.ok p2) ∧
        ∀ e ∈ p2, e.is_resolved = true := by
  intro fuel
  induction fuel with
  | zero =>
    intro pool rc rank hwf h1 h2
    exfalso
    have h3 : numResolved pool ≤ pool.length := List.countP_le_length _
    omega
  | succ fuel ih =>
    intro pool rc rank hwf h1 h2
    by_cases hrc : rc < pool.length
    · have hwf2 : ∀ j t, j < pool.length →
          t ∈ (pool.getD j ConstantPoolEntry.Zero).unresolvedTargets →
          t ≠ j ∧ t < pool.length := by
        intro j t hj ht
        obtain ⟨hb, hr⟩ := hwf j hj t ht
        refine ⟨?_, hb⟩
        intro he
        rw [he] at hr
        exact absurd hr (lt_irrefl _)
      obtain ⟨p2, c, hp0⟩ := passAux_total pool.length pool 0 0 hwf2 (by omega)
      have hp : resolvePass pool = Except.ok (p2, c) := hp0
      obtain ⟨hlen, hcount, hmono, htgts⟩ := resolvePass_spec pool p2 c hp
      have hge : numResolved pool ≤ numResolved p2 :=
        countP_le_of_pointwise _ pool p2 hlen (fun j hj hh => hmono j hh)
      have hcgt : rc < c := by
        by_cases hall : ∀ j, j < pool.length →
            (pool.getD j ConstantPoolEntry.Zero).is_resolved = true
        · have hfull : numResolved pool = pool.length := by
            rw [numResolved]
            exact List.countP_eq_length.mpr ((all_resolved_iff pool).mp hall)
          omega
        · push_neg at hall
          obtain ⟨j, hj, hjf0⟩ := hall
          have hjf : (pool.getD j ConstantPoolEntry.Zero).is_resolved = false := by
            cases hh : (pool.getD j ConstantPoolEntry.Zero).is_resolved
            · rfl
            · exact absurd hh hjf0
          obtain ⟨j0, hj0, hj0f, hmin⟩ :=
            exists_min_rank_unresolved pool rank j hj hjf
          have htgt : ∀ t ∈ (pool.getD j0 ConstantPoolEntry.Zero).unresolvedTargets,
              t ≠ j0 ∧ t < pool.length ∧
              (pool.getD t ConstantPoolEntry.Zero).is_resolved = true := by
            intro t ht
            obtain ⟨htl, htr⟩ := hwf j0 hj0 t ht
            refine ⟨?_, htl, ?_⟩
            · intro he
              rw [he] at htr
              exact absurd htr (lt_irrefl _)
            · by_contra hc2
              have hcf : (pool.getD t ConstantPoolEntry.Zero).is_resolved = false := by
                cases hh : (pool.getD t ConstantPoolEntry.Zero).is_resolved
                · rfl
                · exact absurd hh hc2
              exact absurd htr (not_lt.mpr (hmin t htl hcf))
          have hprog := passAux_progress pool.length pool 0 0 j0 p2 c hj0 htgt
            (by omega) (Nat.zero_le _) hp0
          have hstrict : numResolved pool < numResolved p2 :=
            countP_lt_of_pointwise _ pool p2 j0 hlen
              (fun j2 hj2 hh => hmono j2 hh) hj0 hj0f hprog
          omega
      have hnstall : ¬ c = rc := by omega
      have hwf3 : ∀ j, j < p2.length →
          ∀ t ∈ (p2.getD j ConstantPoolEntry.Zero).unresolvedTargets,
            t < p2.length ∧ rank t < rank j := by
        intro j hj t ht
        rw [hlen] at hj ⊢
        exact hwf j hj t (htgts j t ht)
      have hle2 : numResolved p2 ≤ p2.length := List.countP_le_length _
      obtain ⟨p3, hp3, hall3⟩ := ih p2 c rank hwf3 (le_of_eq hcount) (by omega)
      refine ⟨p3, ?_, hall3⟩
      simp only [resolveLoopFuel, if_pos hrc, hp, if_neg hnstall]
      exact hp3
    · have hle : numResolved pool ≤ pool.length := List.countP_le_length _
      have hfull : numResolved pool = pool.length := by omega
      have hall : ∀ e ∈ pool, e.is_resolved = true :=
        List.countP_eq_length.mp hfull
      exact ⟨pool, by simp only [resolveLoopFuel, if_neg hrc], hall⟩

/-- C1: for every pool whose reference graph is acyclic and in bounds (made
precise by a rank function that strictly decreases along every unresolved
reference, which for a finite graph is exactly acyclicity with all chains
bottoming out at entries with no outgoing references), resolve_constant_pool
terminates with Ok and afterwards every entry is in the resolved state. -/
theorem c1_acyclic_resolution :
    ∀ (pool : List ConstantPoolEntry) (rank : Nat → Nat),
      (∀ j, j < pool.length →
        ∀ t ∈ (pool.getD j ConstantPoolEntry.Zero).unresolvedTargets,
          t < pool.length ∧ rank t < rank j) →
      ∃ pool2, resolve_constant_pool pool = Except.ok pool2 ∧
        ∀ e ∈ pool2, e.is_resolved = true := by
  intro pool rank hwf
  obtain ⟨p2, hp2, hall⟩ := resolveLoop_acyclic (pool.length + 1) pool 0 rank
    hwf (Nat.zero_le _) (by omega)
  refine ⟨p2, ?_, hall⟩
  rw [resolve_constant_pool, hp2]
  rfl

/-- Witness for C1: a pool whose ClassInfo entry references the Utf8 leaf at
index 2 is acyclic under the rank that gives entry 1 rank one and all other
entries rank zero; resolution succeeds and resolves everything. -/
theorem c1_acyclic_resolution_witness :
    (∀ j, j < ([ConstantPoolEntry.Zero,
        ConstantPoolEntry.ClassInfo (ConstantPoolRef.Unresolved 2),
        ConstantPoolEntry.Utf8 "x"] : List ConstantPoolEntry).length →
      ∀ t ∈ (([ConstantPoolEntry.Zero,
          ConstantPoolEntry.ClassInfo (ConstantPoolRef.Unresolved 2),
          ConstantPoolEntry.Utf8 "x"] : List ConstantPoolEntry).getD j
          ConstantPoolEntry.Zero).unresolvedTargets,
        t < ([ConstantPoolEntry.Zero,
          ConstantPoolEntry.ClassInfo (ConstantPoolRef.Unresolved 2),
          ConstantPoolEntry.Utf8 "x"] : List ConstantPoolEntry).length ∧
        (if t = 1 then 1 else 0) < (if j = 1 then 1 else 0)) ∧
    (∃ pool2, resolve_constant_pool
        [ConstantPoolEntry.Zero,
         ConstantPoolEntry.ClassInfo (ConstantPoolRef.Unresolved 2),
         ConstantPoolEntry.Utf8 "x"] = Except.ok pool2 ∧
      ∀ e ∈ pool2, e.is_resolved = true) :=
  ⟨by decide,
   c1_acyclic_resolution
     [ConstantPoolEntry.Zero,
      ConstantPoolEntry.ClassInfo (ConstantPoolRef.Unresolved 2),
      ConstantPoolEntry.Utf8 "x"]
     (fun j => if j = 1 then 1 else 0) (by decide)⟩

/-- C2: resolve_constant_pool terminates on every input pool: the while-loop
model always produces an answer within a pass budget of pool.length + 1 (the
zero-fuel arm is unreachable), because each executed scan either errors,
stalls (returning the stall error) or strictly increases the resolved count,
which the second conjunct bounds: a successful scan's count never drops below
the prior number of resolved entries and never exceeds the pool length. -/
theorem c2_resolution_terminates :
    (∀ pool : List ConstantPoolEntry,
      ∃ r, resolveLoopFuel (pool.length + 1) pool 0 = some r ∧
        resolve_constant_pool pool = r) ∧
    (∀ (pool p2 : List ConstantPoolEntry) (c : Nat),
      resolvePass pool = Except.ok (p2, c) →
      numResolved pool ≤ c ∧ c ≤ pool.length) := by
  constructor
  · intro pool
    obtain ⟨r, hr⟩ :=
      resolveLoop_some (pool.length + 1) pool 0 (Nat.zero_le _) (by omega)
    refine ⟨r, hr, ?_⟩
    rw [resolve_constant_pool, hr]
    rfl
  · intro pool p2 c hp
    obtain ⟨hlen, hcount, hmono, -⟩ := resolvePass_spec pool p2 c hp
    have hge : numResolved pool ≤ numResolved p2 :=
      countP_le_of_pointwise _ pool p2 hlen (fun j hj hh => hmono j hh)
    have hle : numResolved p2 ≤ p2.length := List.countP_le_length _
    omega

/-- Witness for C2: one concrete successful scan, with its count bounded as
the theorem states. -/
theorem c2_resolution_terminates_witness :
    resolvePass [ConstantPoolEntry.Zero, ConstantPoolEntry.Utf8 "x"] =
      Except.ok ([ConstantPoolEntry.Zero, ConstantPoolEntry.Utf8 "x"], 2) ∧
    numResolved [ConstantPoolEntry.Zero, ConstantPoolEntry.Utf8 "x"] ≤ 2 ∧
    2 ≤ ([ConstantPoolEntry.Zero, ConstantPoolEntry.Utf8 "x"] :
      List ConstantPoolEntry).length :=
  ⟨rfl, c2_resolution_terminates.2
    [ConstantPoolEntry.Zero, ConstantPoolEntry.Utf8 "x"]
    [ConstantPoolEntry.Zero, ConstantPoolEntry.Utf8 "x"] 2 rfl⟩

/-- The decode loop's answer does not depend on the fuel argument as long as
the fuel is at least count − cp_ix: with the entry point's fuel
k = constant_pool_count this shows the fuel is a faithful rendering of the
source's `while cp_ix < constant_pool_count` loop. -/
theorem readCPLoop_fuel_irrelevant :
    ∀ (k k2 : Nat) (bytes : List Nat) (ix cp_ix count : Nat)
      (acc : List ConstantPoolEntry),
      count ≤ k + cp_ix → count ≤ k2 + cp_ix →
      readCPLoop k bytes ix cp_ix count acc =
        readCPLoop k2 bytes ix cp_ix count acc := by
  intro k
  induction k with
  | zero =>
    intro k2 bytes ix cp_ix count acc h1 h2
    have hc : ¬ cp_ix < count := by omega
    cases k2 with
    | zero => rfl
    | succ k2 => simp only [readCPLoop, if_neg hc]
  | succ k ih =>
    intro k2 bytes ix cp_ix count acc h1 h2
    cases k2 with
    | zero =>
      have hc : ¬ cp_ix < count := by omega
      simp only [readCPLoop, if_neg hc]
    | succ k2 =>
      by_cases hc : cp_ix < count
      · simp only [readCPLoop, if_pos hc]
        cases hru : read_u1 bytes ix with
        | error e => rfl
        | ok p =>
          obtain ⟨ct, ix1⟩ := p
          dsimp only
          cases hre : readEntry ct bytes ix1 with
          | error e => rfl
          | ok q =>
            obtain ⟨entry, ix2⟩ := q
            dsimp only
            by_cases htag : ct = 5 ∨ ct = 6
            · rw [if_pos htag, if_pos htag]
              exact ih k2 bytes ix2 (cp_ix + 2) count
                ((acc ++ [entry]) ++ [ConstantPoolEntry.Unused])
                (by omega) (by omega)
            · rw [if_neg htag, if_neg htag]
              exact ih k2 bytes ix2 (cp_ix + 1) count (acc ++ [entry])
                (by omega) (by omega)
      · simp only [readCPLoop, if_neg hc]
